import Mathlib

/-!
Shop-binding form controller, verification-code cooldown and theme toggle.

A shallow embedding of `static/js/shop_binding_request.js`, `static/js/verification.js` and
`static/js/theme.js`.

JavaScript strings are sequences of UTF-16 code units; `.length` counts code units and the
regular expressions of the scripts (none has the `u` flag) match code unit by code unit.
A string is therefore a `List Nat` of code units.
-/

set_option autoImplicit false
set_option maxRecDepth 8000

/-- JavaScript string: the list of its UTF-16 code units. -/
abbrev JSString := List Nat

namespace JS

/-- Code units of a Lean string literal whose characters all lie in the Basic Multilingual
Plane (one code unit per character). -/
def ofString (s : String) : JSString := s.toList.map Char.toNat

/-- ECMAScript `WhiteSpace` and `LineTerminator` code units: the class `\s` of a regular
expression and the characters removed by `String.prototype.trim`. -/
def isWhiteSpace (c : Nat) : Bool :=
  (9 ≤ c && c ≤ 13) || c == 0x20 || c == 0xA0 || c == 0x1680 ||
  (0x2000 ≤ c && c ≤ 0x200A) || c == 0x2028 || c == 0x2029 || c == 0x202F ||
  c == 0x205F || c == 0x3000 || c == 0xFEFF

/-- Class `[0-9]`. -/
def isDigit (c : Nat) : Bool := 48 ≤ c && c ≤ 57

/-- Truthiness of a string: `!value` is true exactly for the empty string. -/
def truthy (s : JSString) : Bool := !s.isEmpty

/-- Models `String.prototype.trim`: white space removed from both ends. -/
def trim (s : JSString) : JSString :=
  ((s.dropWhile isWhiteSpace).reverse.dropWhile isWhiteSpace).reverse

/-- Apply `f` to the first element satisfying `p`: a write through the element that
`querySelector` or `getElementById` returned. -/
def updateFirst {α : Type} (p : α → Bool) (f : α → α) : List α → List α
  | [] => []
  | c :: rest => if p c then f c :: rest else c :: updateFirst p f rest

end JS

namespace ShopBinding

/-- Models `value.replace(/[\s-]/g, '')`: every white-space code unit and every `-` removed. -/
def stripSpacesAndDashes (value : JSString) : JSString :=
  value.filter (fun c => !(JS.isWhiteSpace c || c == 45))

/-- Models `s.replace(/^\+/, '')`: one `+` removed when it is the first code unit. -/
def stripLeadingPlus : JSString → JSString
  | 43 :: rest => rest
  | s => s

/-- Models `/^[0-9]+$/.test(s)`: from the start of the input, one or more digits, then the end of
the input (no `m` flag, so `$` is the end of the string only). -/
def testDigitsOnly : JSString → Bool
  | [] => false
  | [c] => JS.isDigit c
  | c :: rest => JS.isDigit c && testDigitsOnly rest

/-- The `normalized` local of `fieldMap.contact_phone.validate`. -/
def normalizePhone (value : JSString) : JSString :=
  stripLeadingPlus (stripSpacesAndDashes value)

/-- Models `fieldMap.contact_phone.validate`. -/
def validateContactPhone (value : JSString) : Bool :=
  if !JS.truthy value then false
  else
    let normalized := normalizePhone value
    testDigitsOnly normalized && decide (normalized.length ≥ 7) && decide (normalized.length ≤ 15)

/-- Models `/[<>\/\\]/.test(s)`: some code unit is `<`, `>`, `/` or `\`. -/
def testForbiddenChars (s : JSString) : Bool :=
  s.any (fun c => c == 60 || c == 62 || c == 47 || c == 92)

/-- Models `fieldMap.requested_shop_name.validate`. The argument is always a string (an input's
`value`, or `''`), so `value || ''` is `value`. -/
def validateRequestedShopName (value : JSString) : Bool :=
  let trimmed := JS.trim value
  if !JS.truthy trimmed then false
  else if decide (trimmed.length < 2) || decide (trimmed.length > 120) then false
  else !testForbiddenChars trimmed

/-- Models `fieldMap.mall_name.validate` and `fieldMap.contact_name.validate`:
`Boolean((value || '').trim())`. -/
def validateNonBlank (value : JSString) : Bool := JS.truthy (JS.trim value)

/-- Models `fieldMap.role_requested.validate`: `Boolean(value)`. -/
def validateRoleRequested (value : JSString) : Bool := JS.truthy value

/-- Element kinds matched by the selector `input, textarea, select`. -/
inductive Tag where
  | input
  | textarea
  | select
  deriving DecidableEq, Repr

/-- A control of the form, with the properties the script reads or writes. `invalid` is the
presence of the class `is-invalid`; `defaultValue` and `defaultChecked` are what
`form.reset()` restores. -/
structure Control where
  tag : Tag
  id : JSString
  name : JSString
  type : JSString
  value : JSString
  checked : Bool
  required : Bool
  invalid : Bool
  defaultValue : JSString
  defaultChecked : Bool
  deriving DecidableEq, Repr

/-- A file handle of the attachment input: the script reads `name` and `size` (bytes). -/
structure File where
  name : JSString
  size : Nat
  deriving DecidableEq, Repr

/-- The submit and save-draft buttons, as far as the submit handler touches them. -/
structure FormButton where
  disabled : Bool
  textContent : JSString
  loadingText : Option JSString
  busy : Bool
  deriving DecidableEq, Repr

/-- Content of `#attachmentPreview`: the rows that `renderAttachmentList` built (one per
staged file, each with its remove button), or one of the error texts. -/
inductive Preview where
  | rows (files : List File)
  | error (text : JSString)
  deriving DecidableEq, Repr

/-- What `localStorage.getItem(draftKey)` holds when it is a non-empty string: text on which
the body of the `try` in `restoreDraft` throws (`malformed`), or the JSON of an object whose
values are strings, such as `collectDraft` builds, with its keys in insertion order. -/
inductive StoredDraft where
  | malformed
  | object (entries : List (JSString × JSString))
  deriving DecidableEq, Repr

/-- The page state the controller closes over. `controls` are the `input`, `textarea` and
`select` elements of the form in document order; `draft` is the entry of `localStorage`
under `draftKey` (`none`: absent or empty, both falsy); `attachmentFiles` is
`attachmentInput.files`; `preview` is the content of `#attachmentPreview`;
`hasSearchResults` and `hasAttachmentPreview` say whether `#shopSearchResults` and
`#attachmentPreview` exist in the document. Three facts come from the browser and the form
markup, which are not part of the repository: `hasRequestSubmit` (whether
`form.requestSubmit` is a function), `noValidate` (the form's `novalidate` attribute) and
`otherConstraintsMet` (whether the constraints the markup declares besides `required`, such
as `pattern` or `maxlength`, are met). -/
structure State where
  controls : List Control
  isDraftSubmit : Bool
  draft : Option StoredDraft
  attachmentStore : List File
  attachmentFiles : List File
  preview : Preview
  submitBtn : Option FormButton
  saveDraftBtn : Option FormButton
  summaryVisible : Bool
  summaryItems : List JSString
  focus : Option JSString
  hasSearchResults : Bool
  hasAttachmentPreview : Bool
  hasRequestSubmit : Bool
  noValidate : Bool
  otherConstraintsMet : Bool
  deriving DecidableEq, Repr

/-- The constant `draftKey`. -/
def draftKey : JSString := JS.ofString "shop-binding-form-draft-v1"

/-- The literal `'OWNER'`. -/
def OWNER : JSString := JS.ofString "OWNER"

/-- Models `form.querySelector('#' + id)` among the controls: the first one with that id. -/
def queryById (s : State) (id : JSString) : Option Control :=
  s.controls.find? (fun c => c.id == id)

/-- Models `form.querySelector('[name="identity_type"]:checked')`. -/
def checkedIdentity (s : State) : Option Control :=
  s.controls.find? (fun c => c.name == JS.ofString "identity_type" && c.checked)

/-- Models `identityNeedsAuthorization`: `checked && checked.value !== 'OWNER'`. When no identity
radio is checked the JavaScript value is `null`; every caller uses it for its truthiness
only (`!…`, `… ? :`, and the boolean attribute `required`), so the result is a `Bool`. -/
def identityNeedsAuthorization (s : State) : Bool :=
  match checkedIdentity s with
  | none => false
  | some checked => checked.value != OWNER

/-- The id of `authorizationInput`. -/
def authorizationNoteId : JSString := JS.ofString "id_authorization_note"

/-- The element `authorizationInput`, when it exists. -/
def authorizationInput (s : State) : Option Control := queryById s authorizationNoteId

/-- Models `syncAuthorizationState` (the `aria-required` attribute and the hint text follow
`required` and are left out). -/
def syncAuthorizationState (s : State) : State :=
  match authorizationInput s with
  | none => s
  | some _ =>
    let required := identityNeedsAuthorization s
    let write := fun (c : Control) => { c with required := required }
    { s with controls := JS.updateFirst (fun c => c.id == authorizationNoteId) write s.controls }

/-- Models `fieldMap.authorization_note.validate`. -/
def validateAuthorizationNote (s : State) (value : JSString) : Bool :=
  if !identityNeedsAuthorization s then true
  else JS.truthy (JS.trim value)

/-- An entry of `fieldMap`: the id its `el` was looked up with, its message, its validator. -/
structure Field where
  elId : JSString
  message : JSString
  validate : State → JSString → Bool

/-- The object `fieldMap`, as `Object.values` lists it (insertion order). -/
def fieldMap : List Field :=
  [ { elId := JS.ofString "id_requested_shop_name", message := JS.ofString "请填写真实店铺名称",
      validate := fun _ v => validateRequestedShopName v },
    { elId := JS.ofString "id_mall_name", message := JS.ofString "请填写所在商场/园区/区域",
      validate := fun _ v => validateNonBlank v },
    { elId := JS.ofString "id_contact_name", message := JS.ofString "请填写联系人姓名",
      validate := fun _ v => validateNonBlank v },
    { elId := JS.ofString "id_contact_phone", message := JS.ofString "手机号格式不正确",
      validate := fun _ v => validateContactPhone v },
    { elId := JS.ofString "id_role_requested", message := JS.ofString "请选择期望绑定角色",
      validate := fun _ v => validateRoleRequested v },
    { elId := authorizationNoteId, message := JS.ofString "非店主身份需填写授权说明",
      validate := fun s v => validateAuthorizationNote s v } ]

/-- The value `validateForm` hands to a field's validator: `field.el ? field.el.value : ''`. -/
def fieldValue (s : State) (field : Field) : JSString :=
  match queryById s field.elId with
  | none => []
  | some el => el.value

/-- Models `setFieldState`: nothing without an element, otherwise the class `is-invalid` is removed
or added (`aria-invalid` follows it). -/
def setFieldState (s : State) (field : Field) (isValid : Bool) : State :=
  match queryById s field.elId with
  | none => s
  | some _ =>
    let write := fun (c : Control) => { c with invalid := !isValid }
    { s with controls := JS.updateFirst (fun c => c.id == field.elId) write s.controls }

/-- The `forEach` of `validateForm` over the fields: the state with the field marks set and
the collected `errors`. -/
def validateFields : List Field → State → List JSString → State × List JSString
  | [], s, errors => (s, errors)
  | field :: rest, s, errors =>
    let value := fieldValue s field
    let isValid := field.validate s value
    let s1 := setFieldState s field isValid
    validateFields rest s1 (if isValid then errors else errors ++ [field.message])

/-- Models `validateForm`: the new state and the returned boolean `errors.length === 0`. The summary
list is rebuilt from `errors`, shown when there is an error, and the first element carrying
`is-invalid` receives the focus. -/
def validateForm (s : State) : State × Bool :=
  let (s1, errors) := validateFields fieldMap s []
  let s2 := { s1 with summaryItems := errors, summaryVisible := !errors.isEmpty }
  let s3 :=
    if errors.isEmpty then s2
    else
      match s2.controls.find? (fun c => c.invalid) with
      | none => s2
      | some firstInvalid => { s2 with focus := some firstInvalid.id }
  (s3, errors.isEmpty)

/-- Models `name.split('.')`: the pieces between the dots (code unit 46); never empty. -/
def splitOnDot : JSString → List JSString
  | [] => [[]]
  | c :: rest =>
    match splitOnDot rest with
    | [] => [[c]]
    | piece :: pieces => if c == 46 then [] :: piece :: pieces else (c :: piece) :: pieces

/-- Models `String.prototype.toLowerCase` on the code units `A`-`Z`. Other code units are kept:
the Unicode tables send a letter outside ASCII to code units outside ASCII, U+212A (to `k`)
and U+0130 (to `i`, U+0307) apart, so none of them yields a letter of `allowed` and
membership in `allowed` is what it is in the browser. -/
def toLowerCase (s : JSString) : JSString :=
  s.map (fun c => if 65 ≤ c ∧ c ≤ 90 then c + 32 else c)

/-- The constant `allowed` of the change handler. -/
def allowed : List JSString :=
  [JS.ofString "jpg", JS.ofString "jpeg", JS.ofString "png", JS.ofString "pdf"]

/-- The local `ext` of the change handler:
`(file.name.split('.').pop() || '').toLowerCase()`. -/
def fileExt (file : File) : JSString :=
  toLowerCase ((splitOnDot file.name).getLastD [])

/-- The size limit `5 * 1024 * 1024`. -/
def maxFileSize : Nat := 5 * 1024 * 1024

/-- The `for` loop of the change handler: the error text of the first file that fails a
check, `none` when the loop runs to its end. -/
def firstRejection : List File → Option JSString
  | [] => none
  | file :: rest =>
    if !allowed.contains (fileExt file) then some (JS.ofString "仅支持 JPG / PNG / PDF 文件。")
    else if file.size > maxFileSize then some (JS.ofString "单个文件不得超过 5MB。")
    else firstRejection rest

/-- Models `syncAttachmentInput` followed by `renderAttachmentList`. -/
def syncAndRender (s : State) : State :=
  { s with attachmentFiles := s.attachmentStore, preview := .rows s.attachmentStore }

/-- The `change` handler of `attachmentInput`, run after the browser has put the chosen
files `incoming` into `attachmentInput.files`. -/
def changeHandler (s : State) (incoming : List File) : State :=
  match firstRejection incoming with
  | some text => { s with preview := .error text, attachmentFiles := [] }
  | none =>
    let pushed := s.attachmentStore ++ incoming
    let store := if pushed.length > 5 then pushed.take 5 else pushed
    syncAndRender { s with attachmentStore := store, attachmentFiles := incoming }

/-- The `click` handler of the remove button of row `index`:
`attachmentStore.splice(index, 1)`, then sync and render. -/
def removeClick (s : State) (index : Nat) : State :=
  syncAndRender { s with attachmentStore := s.attachmentStore.eraseIdx index }

/-- Models `form.reset()` on a control. -/
def resetControl (c : Control) : Control :=
  { c with value := c.defaultValue, checked := c.defaultChecked }

/-- The `click` handler of `resetBtn`; `confirmed` is the answer of `window.confirm`. The
statements run in source order, and writing `innerHTML` of an element that does not exist
throws, which ends the handler there. -/
def resetClick (s : State) (confirmed : Bool) : State :=
  if !confirmed then s
  else
    let s1 := { s with controls := s.controls.map resetControl, attachmentFiles := [] }
    let s2 := { s1 with summaryVisible := false }
    let s3 := { s2 with controls := s2.controls.map (fun c => { c with invalid := false }) }
    if !s3.hasSearchResults then s3
    else
      let s4 := { s3 with attachmentStore := [] }
      if !s4.hasAttachmentPreview then s4
      else syncAuthorizationState { s4 with preview := .rows [] }

/-- The events that touch the attachment staging list. -/
inductive AttachmentEvent where
  | change (incoming : List File)
  | remove (index : Nat)
  | reset (confirmed : Bool)
  deriving DecidableEq, Repr

/-- One event handled. -/
def attachmentStep (s : State) : AttachmentEvent → State
  | .change incoming => changeHandler s incoming
  | .remove index => removeClick s index
  | .reset confirmed => resetClick s confirmed

/-- A sequence of events handled in order. -/
def attachmentRun (s : State) (events : List AttachmentEvent) : State :=
  events.foldl attachmentStep s

/-- The extension of a file name in the words of the specification: the text after the
last `.`, lower-cased; a name without `.` has no extension. -/
def specExtension (name : JSString) : Option JSString :=
  if name.contains 46 then some (toLowerCase (name.reverse.takeWhile (fun c => c != 46)).reverse)
  else none

/-- A file the specification rejects: its extension is not in the allow-list (a name without
extension included) or it is larger than 5 MB. -/
def specRejects (file : File) : Bool :=
  (match specExtension file.name with
   | none => true
   | some ext => !allowed.contains ext) || decide (file.size > maxFileSize)

/-- Models `payload[name] = value` on an object kept as its list of entries: an existing key keeps
its place and takes the new value, a new key goes to the end. -/
def payloadSet : List (JSString × JSString) → JSString → JSString → List (JSString × JSString)
  | [], name, value => [(name, value)]
  | (k, v) :: rest, name, value =>
    if k == name then (k, value) :: rest else (k, v) :: payloadSet rest name value

/-- Models `collectDraft`: the payload built from the `input, textarea, select` elements. -/
def collectDraft (s : State) : List (JSString × JSString) :=
  s.controls.foldl
    (fun payload el =>
      if el.name.isEmpty || el.type == JS.ofString "file" || el.type == JS.ofString "hidden" then
        payload
      else if el.type == JS.ofString "radio" then
        (if el.checked then payloadSet payload el.name el.value else payload)
      else payloadSet payload el.name el.value)
    []

/-- The body of the `forEach` in `restoreDraft` for one key of the parsed draft. `nodes` are
the elements named `name`; a radio group has every node's `checked` set to whether its value
is the stored one, any other field has the value of its first node set. -/
def restoreEntry (s : State) (entry : JSString × JSString) : State :=
  match s.controls.find? (fun c => c.name == entry.1) with
  | none => s
  | some first =>
    if first.type == JS.ofString "radio" then
      { s with controls := s.controls.map (fun c =>
          if c.name == entry.1 then { c with checked := c.value == entry.2 } else c) }
    else
      let write := fun (c : Control) => { c with value := entry.2 }
      { s with controls := JS.updateFirst (fun c => c.name == entry.1) write s.controls }

/-- Models `restoreDraft`: nothing without a stored draft; a draft on which the `try` body throws
is removed from storage; otherwise every key is restored and the authorization state
synchronised. -/
def restoreDraft (s : State) : State :=
  match s.draft with
  | none => s
  | some .malformed => { s with draft := none }
  | some (.object entries) => syncAuthorizationState (entries.foldl restoreEntry s)

/-- The element `intentInput` (`input[name="intent"]`) is the first control this holds of. -/
def isIntentInput (c : Control) : Bool := c.tag == Tag.input && c.name == JS.ofString "intent"

/-- The `click` handler of `saveDraftBtn`, up to its call of `form.requestSubmit()`. -/
def saveDraftClick (s : State) : State :=
  let write := fun (c : Control) => { c with value := JS.ofString "draft" }
  { s with isDraftSubmit := true, controls := JS.updateFirst isIntentInput write s.controls }

/-- What the submit handler does to `targetBtn`. -/
def markBusy (b : FormButton) : FormButton :=
  let text := match b.loadingText with
    | none => b.textContent
    | some t => if JS.truthy t then t else b.textContent
  { b with disabled := true, textContent := text, busy := true }

/-- The part of the submit handler after the validation gate. -/
def submitProceed (s : State) : State :=
  let intent := if s.isDraftSubmit then JS.ofString "draft" else JS.ofString "submit"
  let write := fun (c : Control) => if !JS.truthy c.value then { c with value := intent } else c
  let s1 := { s with controls := JS.updateFirst isIntentInput write s.controls }
  let s2 := if !s1.isDraftSubmit then { s1 with draft := none } else s1
  let s3 :=
    if s2.isDraftSubmit then { s2 with saveDraftBtn := s2.saveDraftBtn.map markBusy }
    else { s2 with submitBtn := s2.submitBtn.map markBusy }
  { s3 with isDraftSubmit := false }

/-- The `submit` handler of the form: the new state and whether the event was prevented
(`event.preventDefault()`). `validateForm` runs only when `isDraftSubmit` is false. -/
def submitHandler (s : State) : State × Bool :=
  if !s.isDraftSubmit then
    let (s1, ok) := validateForm s
    if !ok then (s1, true) else (submitProceed s1, false)
  else (submitProceed s, false)

/-- The browser's check of `required` on a control (`validity.valueMissing`): a hidden input
is barred from validation, a radio needs a checked radio in its group, a checkbox needs to
be checked, any other control needs a non-empty value. -/
def valueMissing (s : State) (c : Control) : Bool :=
  c.required &&
    (if c.type == JS.ofString "hidden" then false
     else if c.type == JS.ofString "radio" then
       !s.controls.any (fun d => d.type == JS.ofString "radio" && d.name == c.name && d.checked)
     else if c.type == JS.ofString "checkbox" then !c.checked
     else c.value.isEmpty)

/-- Whether `form.requestSubmit()` dispatches the `submit` event: it first validates the
form's constraints, unless the form has `novalidate`, and when a control is invalid it
reports that and returns without an event. -/
def requestSubmitFires (s : State) : Bool :=
  s.noValidate || (s.otherConstraintsMet && s.controls.all (fun c => !valueMissing s c))

/-- How a request to submit the form ends. -/
inductive SubmitResult where
  | submitted
  | prevented
  | notDispatched
  | submittedWithoutEvent
  deriving DecidableEq, Repr

/-- A `submit` event dispatched on the form: the handler runs, and the form is submitted
unless the handler prevented the event. -/
def dispatchSubmit (s : State) : State × SubmitResult :=
  let (s1, prevented) := submitHandler s
  (s1, if prevented then .prevented else .submitted)

/-- The save-draft action: the click handler and what its last statement brings about.
`form.requestSubmit()` dispatches the `submit` event only when the form passes the browser's
constraint validation (`notDispatched` otherwise: no event, nothing submitted); the fallback
`form.submit()` submits the form without any `submit` event. -/
def saveDraftAction (s : State) : State × SubmitResult :=
  let s1 := saveDraftClick s
  if s1.hasRequestSubmit then
    if requestSubmitFires s1 then dispatchSubmit s1 else (s1, .notDispatched)
  else (s1, .submittedWithoutEvent)

/-- A click on the real submit button: the browser validates the constraints (unless
`novalidate`) and then dispatches the `submit` event. -/
def submitClick (s : State) : State × SubmitResult :=
  if requestSubmitFires s then dispatchSubmit s else (s, .notDispatched)

/-- The statements the script runs on page load that touch the modelled state:
`syncAuthorizationState()` and, at the end, `restoreDraft()`. -/
def pageLoad (s : State) : State := restoreDraft (syncAuthorizationState s)

/-- The value of the checked identity radio, if one is checked. -/
def selectedIdentity (s : State) : Option JSString :=
  (checkedIdentity s).map (fun c => c.value)

/-- The element `intentInput`, when it exists. -/
def intentInput (s : State) : Option Control := s.controls.find? isIntentInput

/-- Whether a field fails: its validator rejects the value `validateForm` hands to it. -/
def fieldFails (s : State) (field : Field) : Bool := !field.validate s (fieldValue s field)

/-- A control with the given fields, nothing checked, required or marked. -/
def mkControl (tag : Tag) (id name type value : String) : Control :=
  { tag := tag, id := JS.ofString id, name := JS.ofString name, type := JS.ofString type,
    value := JS.ofString value, checked := false, required := false, invalid := false,
    defaultValue := JS.ofString value, defaultChecked := false }

/-- A state holding the given controls and nothing else. -/
def mkState (controls : List Control) : State :=
  { controls := controls, isDraftSubmit := false, draft := none, attachmentStore := [],
    attachmentFiles := [], preview := .rows [], submitBtn := none, saveDraftBtn := none, summaryVisible := false,
    summaryItems := [], focus := none, hasSearchResults := true, hasAttachmentPreview := true,
    hasRequestSubmit := true, noValidate := false, otherConstraintsMet := true }

/-- The note input of the sample forms. -/
def noteInput : Control :=
  mkControl .textarea "id_authorization_note" "authorization_note" "textarea" ""

/-- A freshly rendered form on which no identity radio is checked yet. -/
def noIdentityChecked : State :=
  mkState
    [ mkControl .input "id_identity_type_0" "identity_type" "radio" "OWNER",
      mkControl .input "id_identity_type_1" "identity_type" "radio" "MANAGER",
      noteInput ]

/-- The same form with the radio `MANAGER` checked. -/
def managerChecked : State :=
  mkState
    [ mkControl .input "id_identity_type_0" "identity_type" "radio" "OWNER",
      { mkControl .input "id_identity_type_1" "identity_type" "radio" "MANAGER" with
        checked := true },
      noteInput ]

/-- A filled-in form with the given shop name: every other field valid, `OWNER` checked, an
empty hidden intent input, a submit and a save-draft button, and a draft in storage. -/
def formWith (shopName : String) : State :=
  { mkState
      [ mkControl .input "id_requested_shop_name" "requested_shop_name" "text" shopName,
        mkControl .input "id_mall_name" "mall_name" "text" "Mall 1",
        mkControl .input "id_contact_name" "contact_name" "text" "Li",
        mkControl .input "id_contact_phone" "contact_phone" "text" "+86 138-0013-8000",
        mkControl .select "id_role_requested" "role_requested" "select-one" "MANAGER",
        { mkControl .input "id_identity_type_0" "identity_type" "radio" "OWNER" with
          checked := true },
        mkControl .input "id_identity_type_1" "identity_type" "radio" "MANAGER",
        noteInput,
        mkControl .input "id_intent" "intent" "hidden" "" ] with
    draft := some (.object [(JS.ofString "contact_name", JS.ofString "Wang")])
    submitBtn := some { disabled := false, textContent := JS.ofString "Submit",
                        loadingText := none, busy := false }
    saveDraftBtn := some { disabled := false, textContent := JS.ofString "Save draft",
                           loadingText := none, busy := false } }

/-- A form on which every validator fails: all six fields empty, `MANAGER` checked, and an
empty hidden intent input. -/
def blankForm : State :=
  { mkState
      [ mkControl .input "id_requested_shop_name" "requested_shop_name" "text" "",
        mkControl .input "id_mall_name" "mall_name" "text" "",
        mkControl .input "id_contact_name" "contact_name" "text" "",
        mkControl .input "id_contact_phone" "contact_phone" "text" "",
        mkControl .select "id_role_requested" "role_requested" "select-one" "",
        mkControl .input "id_identity_type_0" "identity_type" "radio" "OWNER",
        { mkControl .input "id_identity_type_1" "identity_type" "radio" "MANAGER" with
          checked := true },
        noteInput,
        mkControl .input "id_intent" "intent" "hidden" "" ] with
    submitBtn := some { disabled := false, textContent := JS.ofString "Submit",
                        loadingText := none, busy := false }
    saveDraftBtn := some { disabled := false, textContent := JS.ofString "Save draft",
                           loadingText := none, busy := false } }

/-- The blank form as the script leaves it after page load: with `MANAGER` checked,
`syncAuthorizationState` has made the empty note `required`. -/
def loadedBlankForm : State := pageLoad blankForm

/-- The user types `text` into the control with the given id. -/
def typeValue (s : State) (id text : String) : State :=
  let write := fun (c : Control) => { c with value := JS.ofString text }
  { s with controls := JS.updateFirst (fun c => c.id == JS.ofString id) write s.controls }

/-- The loaded blank form after a save-draft click and after the user has then filled in
every field, the shop name with the one-character name `A` and the phone with `abc`: no
field is empty any more, and two validators still fail. -/
def refilledAfterSaveDraft : State :=
  typeValue (typeValue (typeValue (typeValue (typeValue (typeValue
    (saveDraftAction loadedBlankForm).1
    "id_authorization_note" "authorised") "id_requested_shop_name" "A")
    "id_mall_name" "Mall 1") "id_contact_name" "Li") "id_contact_phone" "abc")
    "id_role_requested" "MANAGER"

/-- The form with a valid shop name. -/
def filledForm : State := formWith "Valid Shop"

/-- The filled-in form with nothing in storage. -/
def filledFormNoDraft : State := { filledForm with draft := none }

end ShopBinding

namespace JS

/-- Decimal digits of `n`, most significant first, as code units; `fuel` bounds the number
of digits. -/
def natDigits : Nat → Nat → JSString
  | 0, _ => []
  | fuel + 1, n => if n < 10 then [48 + n] else natDigits fuel (n / 10) ++ [48 + n % 10]

/-- Models `String(n)` for a natural number. -/
def natToString (n : Nat) : JSString := natDigits (n + 1) n

/-- Models `String(i)` for an integer (below 10^21 in absolute value, where JavaScript prints a
number in plain decimal notation). -/
def intToString (i : Int) : JSString :=
  if i < 0 then 45 :: natToString i.natAbs else natToString i.toNat

/-- The value of the longest prefix of decimal digits, continuing from `acc`. -/
def parseDigitsPrefix : JSString → Nat → Nat
  | [], acc => acc
  | c :: rest, acc => if isDigit c then parseDigitsPrefix rest (acc * 10 + (c - 48)) else acc

/-- Models `parseInt(raw, 10)`: leading white space skipped, an optional sign, then the longest
prefix of digits; `none` is `NaN` (no digit there). -/
def parseInt10 (raw : JSString) : Option Int :=
  match raw.dropWhile isWhiteSpace with
  | [] => none
  | c :: rest =>
    let negative := c == 45
    let body := if c == 45 || c == 43 then rest else c :: rest
    match body with
    | [] => none
    | d :: _ =>
      if isDigit d then
        some (if negative then -(parseDigitsPrefix body 0 : Int) else (parseDigitsPrefix body 0 : Int))
      else none

/-- The bound 2^53 (`Number.MAX_SAFE_INTEGER + 1`): every non-negative integer below it is a
JavaScript number, and a sum, difference or product of such integers that is again below it,
like the floor of the quotient of one of them by 1000, is computed without rounding. The
scripts compute with numbers; the integers of this development stand for them in that
range. -/
def safeBound : Int := 9007199254740992

end JS

namespace Verification

/-- Models `localStorage`: its entries. -/
abbrev Storage := List (JSString × JSString)

/-- Models `localStorage.getItem(key)`. -/
def getItem (st : Storage) (key : JSString) : Option JSString :=
  (st.find? (fun e => e.1 == key)).map (fun e => e.2)

/-- Models `localStorage.removeItem(key)`. -/
def removeItem (st : Storage) (key : JSString) : Storage :=
  st.filter (fun e => !(e.1 == key))

/-- Models `localStorage.setItem(key, value)`. -/
def setItem (st : Storage) (key value : JSString) : Storage :=
  (key, value) :: removeItem st key

/-- Models `button.dataset`: each `data-*` attribute the script reads, `[]` when the attribute is
absent (the script tests these values for truthiness only, and `undefined` and `''` are
both falsy). -/
structure Dataset where
  scene : JSString
  channel : JSString
  channelSource : JSString
  destinationEmail : JSString
  destinationSms : JSString
  destinationInput : JSString
  identifierInput : JSString
  messageTarget : JSString
  sendUrl : JSString
  redirectUrl : JSString
  defaultText : JSString
  deriving DecidableEq, Repr

/-- A send button. -/
structure Button where
  dataset : Dataset
  disabled : Bool
  textContent : JSString
  deriving DecidableEq, Repr

/-- An element reachable by `document.getElementById`: an input (its `value`) or a message
target (its text and the classes `text-danger`, `text-muted`). -/
structure Element where
  id : JSString
  value : JSString
  textContent : JSString
  textDanger : Bool
  textMuted : Bool
  deriving DecidableEq, Repr

/-- A radio of a channel-source group. -/
structure Radio where
  name : JSString
  value : JSString
  checked : Bool
  deriving DecidableEq, Repr

/-- An interval created by `startCountdown`, with the variables its callback closes over. -/
structure Timer where
  remaining : Int
  defaultText : JSString
  key : JSString
  deriving DecidableEq, Repr

/-- An address assigned to `window.location.href` by the response callback: the button's
`data-redirect-url` and, when the payload carries an identifier, that identifier, which the
script appends as `?identifier=` after `encodeURIComponent`. -/
structure Redirect where
  url : JSString
  identifier : Option JSString
  deriving DecidableEq, Repr

/-- The page around one send button: the button, the document's elements and radios,
`localStorage`, the running intervals of the button, `sessionStorage.reset_identifier` and
the address assigned to `window.location.href`, if any. -/
structure State where
  button : Button
  elements : List Element
  radios : List Radio
  storage : Storage
  timers : List Timer
  resetIdentifier : Option JSString
  location : Option Redirect
  deriving DecidableEq, Repr

/-- The literal `"RESET_PASSWORD"`. -/
def RESET_PASSWORD : JSString := JS.ofString "RESET_PASSWORD"

/-- Models `getChannelFromSource`. -/
def getChannelFromSource (s : State) (sourceName : JSString) : JSString :=
  if !JS.truthy sourceName then []
  else
    match s.radios.find? (fun r => r.name == sourceName && r.checked) with
    | none => []
    | some el => el.value

/-- Models `getInputValueById`. -/
def getInputValueById (s : State) (id : JSString) : JSString :=
  if !JS.truthy id then []
  else
    match s.elements.find? (fun e => e.id == id) with
    | none => []
    | some el => JS.trim el.value

/-- Models `setMessage`. -/
def setMessage (s : State) (targetId message : JSString) (isError : Bool) : State :=
  if !JS.truthy targetId then s
  else
    match s.elements.find? (fun e => e.id == targetId) with
    | none => s
    | some _ =>
      let write := fun (e : Element) =>
        { e with textContent := message, textDanger := isError, textMuted := !isError }
      { s with elements := JS.updateFirst (fun e => e.id == targetId) write s.elements }

/-- Models `cooldownKey`: the template literal
`verificationCooldown:${scene}:${channel}:${destination}`. -/
def cooldownKey (scene channel destination : JSString) : JSString :=
  JS.ofString "verificationCooldown:" ++ scene ++ [58] ++ channel ++ [58] ++ destination

/-- Models `saveCooldown`; `now` is the reading of `Date.now()` (milliseconds). -/
def saveCooldown (st : Storage) (key : JSString) (seconds now : Int) : Storage :=
  if !JS.truthy key || seconds == 0 then st
  else
    let untilMs := now + seconds * 1000
    setItem st key (JS.intToString untilMs)

/-- Models `loadCooldown`: the returned number of seconds and the storage it leaves.
`Math.floor(x / 1000)` on integers is Lean's integer division by the positive 1000. -/
def loadCooldown (st : Storage) (key : JSString) (now : Int) : Int × Storage :=
  if !JS.truthy key then (0, st)
  else
    match getItem st key with
    | none => (0, st)
    | some raw =>
      if !JS.truthy raw then (0, st)
      else
        match JS.parseInt10 raw with
        | none => (0, st)
        | some untilMs =>
          let remaining := (untilMs - now) / 1000
          if remaining ≤ 0 then (0, removeItem st key) else (remaining, st)

/-- The label of a counting button: the template literal `重新发送(${remaining}s)`. -/
def resendLabel (remaining : Int) : JSString :=
  JS.ofString "重新发送(" ++ JS.intToString remaining ++ JS.ofString "s)"

/-- The local `defaultText` of `startCountdown`:
`button.dataset.defaultText || button.textContent`. -/
def defaultTextOf (b : Button) : JSString :=
  if JS.truthy b.dataset.defaultText then b.dataset.defaultText else b.textContent

/-- Models `startCountdown(button, seconds, key)` for an integer `seconds`, up to and including
the call of `setInterval`, which adds a timer. -/
def startCountdown (s : State) (seconds : Int) (key : JSString) (now : Int) : State :=
  if seconds == 0 then s
  else
    let storage := saveCooldown s.storage key seconds now
    let defaultText := defaultTextOf s.button
    let button : Button :=
      { dataset := { s.button.dataset with defaultText := defaultText },
        disabled := true,
        textContent := resendLabel seconds }
    { s with
      storage := storage,
      button := button,
      timers := s.timers ++ [{ remaining := seconds, defaultText := defaultText, key := key }] }

/-- One run of the interval callback of the timer at position `i` (one tick, a second
after the previous one). -/
def tick (s : State) (i : Nat) : State :=
  match s.timers.get? i with
  | none => s
  | some t =>
    let remaining := t.remaining - 1
    if remaining ≤ 0 then
      { s with
        timers := s.timers.eraseIdx i,
        button := { s.button with disabled := false, textContent := t.defaultText },
        storage := if JS.truthy t.key then removeItem s.storage t.key else s.storage }
    else
      { s with
        timers := s.timers.set i { t with remaining := remaining },
        button := { s.button with textContent := resendLabel remaining } }

/-- The state after `k` ticks of the timer at position `i`. -/
def ticks (s : State) (i : Nat) : Nat → State
  | 0 => s
  | k + 1 => tick (ticks s i k) i

/-- Models `resolveDestination`. -/
def resolveDestination (s : State) (channel : JSString) : JSString :=
  if channel == JS.ofString "EMAIL" then getInputValueById s s.button.dataset.destinationEmail
  else if channel == JS.ofString "SMS" then getInputValueById s s.button.dataset.destinationSms
  else getInputValueById s s.button.dataset.destinationInput

/-- The local `channel` of the handlers:
`button.dataset.channel || getChannelFromSource(button.dataset.channelSource)`. -/
def channelOf (s : State) : JSString :=
  if JS.truthy s.button.dataset.channel then s.button.dataset.channel
  else getChannelFromSource s s.button.dataset.channelSource

/-- Models `restoreCooldown(button)`. The handler reads the clock twice: `now` is the reading
of `Date.now()` in `loadCooldown`, `saveNow` the later reading in `saveCooldown`, reached
through `startCountdown`. -/
def restoreCooldown (s : State) (now saveNow : Int) : State :=
  let scene := s.button.dataset.scene
  let channel := channelOf s
  if !JS.truthy scene || !JS.truthy channel then s
  else if scene == RESET_PASSWORD then
    let identifier :=
      if JS.truthy s.button.dataset.identifierInput then
        getInputValueById s s.button.dataset.identifierInput
      else []
    if !JS.truthy identifier then s
    else
      let key := cooldownKey scene channel identifier
      let (remaining, storage) := loadCooldown s.storage key now
      let s1 := { s with storage := storage }
      if remaining > 0 then startCountdown s1 remaining key saveNow else s1
  else
    let destination := resolveDestination s channel
    if !JS.truthy destination then s
    else
      let key := cooldownKey scene channel destination
      let (remaining, storage) := loadCooldown s.storage key now
      let s1 := { s with storage := storage }
      if remaining > 0 then startCountdown s1 remaining key saveNow else s1

/-- What the click handler hands to `postJson`, with the locals its response callback
closes over: the payload `scene, channel, destination` and, when the button has a
`data-identifier-input`, `identifier`. -/
structure SendRequest where
  url : JSString
  scene : JSString
  channel : JSString
  destination : JSString
  identifier : Option JSString
  deriving DecidableEq, Repr

/-- Models `payload.identifier`: set only when `button.dataset.identifierInput` is truthy. -/
def payloadIdentifier (s : State) : Option JSString :=
  if JS.truthy s.button.dataset.identifierInput then
    some (getInputValueById s s.button.dataset.identifierInput)
  else none

/-- Truthiness of `payload.identifier` (`undefined` and `''` are falsy). -/
def identifierTruthy : Option JSString → Bool
  | none => false
  | some identifier => JS.truthy identifier

/-- The `click` handler of a send button, up to its call of `postJson`: the new state and
the request posted, if any. -/
def sendClick (s : State) : State × Option SendRequest :=
  let scene := s.button.dataset.scene
  let channel := channelOf s
  let destination := resolveDestination s channel
  let messageTarget := s.button.dataset.messageTarget
  let identifier := payloadIdentifier s
  if !JS.truthy scene || !JS.truthy channel then
    (setMessage s messageTarget (JS.ofString "请选择接收方式。") true, none)
  else if scene != RESET_PASSWORD && !JS.truthy destination then
    (setMessage s messageTarget (JS.ofString "请先填写接收地址。") true, none)
  else if scene == RESET_PASSWORD && !identifierTruthy identifier then
    (setMessage s messageTarget (JS.ofString "请先填写账号标识。") true, none)
  else
    (s, some { url := s.button.dataset.sendUrl, scene := scene, channel := channel,
               destination := destination, identifier := identifier })

/-- The JSON body of the send endpoint's answer, as far as the callback reads it:
`message` (`[]` when absent), the truthiness of `success`, and an integer
`cooldown_seconds` (`none` when absent). -/
structure SendResponse where
  message : JSString
  success : Bool
  cooldownSeconds : Option Int
  deriving DecidableEq, Repr

/-- The key the response callback hands to `startCountdown`. -/
def requestKey (r : SendRequest) : JSString :=
  if r.scene == RESET_PASSWORD && identifierTruthy r.identifier then
    cooldownKey r.scene r.channel (r.identifier.getD [])
  else cooldownKey r.scene r.channel r.destination

/-- The `then` callback of the send request at clock reading `now`. -/
def sendResponse (s : State) (r : SendRequest) (data : SendResponse) (now : Int) : State :=
  let s1 := setMessage s s.button.dataset.messageTarget data.message (!data.success)
  let s2 :=
    match data.cooldownSeconds with
    | none => s1
    | some seconds => if seconds == 0 then s1 else startCountdown s1 seconds (requestKey r) now
  if data.success && JS.truthy s2.button.dataset.redirectUrl then
    if identifierTruthy r.identifier then
      { s2 with
        resetIdentifier := r.identifier,
        location := some { url := s2.button.dataset.redirectUrl, identifier := r.identifier } }
    else { s2 with location := some { url := s2.button.dataset.redirectUrl, identifier := none } }
  else s2

/-- The running state of a countdown: the state `startCountdown` left, with the counter of
the new timer and the label at `remaining`. -/
def counting (s : State) (seconds : Int) (key : JSString) (now : Int) (remaining : Int) : State :=
  { startCountdown s seconds key now with
    timers := s.timers ++
      [{ remaining := remaining, defaultText := defaultTextOf s.button, key := key }],
    button := { (startCountdown s seconds key now).button with
                textContent := resendLabel remaining } }

/-- The deadline a storage holds under `key`, as `loadCooldown` reads it:
`parseInt(localStorage.getItem(key), 10)`, `none` when the entry is absent or not a number. -/
def storedDeadline (st : Storage) (key : JSString) : Option Int :=
  (getItem st key).bind JS.parseInt10

/-- A page reload: the page as rendered, with the storage left by the previous visit, runs
`restoreCooldown` with the pair `readings` of its two clock readings (the one in
`loadCooldown`, then the one in `saveCooldown`); the result is the storage it leaves. -/
def reloadStorage (page : State) (st : Storage) (readings : Int × Int) : Storage :=
  (restoreCooldown { page with storage := st } readings.1 readings.2).storage

/-- The storage after a sequence of reloads with the given pairs of clock readings. -/
def reloadsStorage (page : State) (st : Storage) (readings : List (Int × Int)) : Storage :=
  readings.foldl (reloadStorage page) st

/-- The time that passes inside the handlers of a sequence of reloads: the sum of the
differences between the second and the first clock reading of each. -/
def clockDrift (readings : List (Int × Int)) : Int :=
  (readings.map (fun p => p.2 - p.1)).sum

/-- An answer of the send endpoint that refuses the request and names a cooldown of 30
seconds. -/
def refusedResponse : SendResponse :=
  { message := JS.ofString "too frequent", success := false, cooldownSeconds := some 30 }

/-- An element with the given id and value. -/
def mkElement (id value : String) : Element :=
  { id := JS.ofString id, value := JS.ofString value, textContent := [], textDanger := false,
    textMuted := false }

/-- A registration page: a send button for scene `REGISTER` over the channel `EMAIL`, the
address typed into `#id_email`, and a message target. -/
def samplePage : State :=
  { button :=
      { dataset :=
          { scene := JS.ofString "REGISTER", channel := JS.ofString "EMAIL", channelSource := [],
            destinationEmail := JS.ofString "id_email", destinationSms := [],
            destinationInput := [], identifierInput := [],
            messageTarget := JS.ofString "send_msg", sendUrl := JS.ofString "/verification/send",
            redirectUrl := [], defaultText := [] },
        disabled := false,
        textContent := JS.ofString "Send code" },
    elements := [mkElement "id_email" " user@example.com ", mkElement "send_msg" ""],
    radios := [], storage := [], timers := [], resetIdentifier := none, location := none }

/-- The request the send handler posts on `samplePage`. -/
def sampleRequest : SendRequest :=
  { url := JS.ofString "/verification/send", scene := JS.ofString "REGISTER",
    channel := JS.ofString "EMAIL", destination := JS.ofString "user@example.com",
    identifier := none }

/-- An answer of the send endpoint granting a cooldown of 60 seconds. -/
def sampleResponse : SendResponse :=
  { message := JS.ofString "sent", success := true, cooldownSeconds := some 60 }

/-- The sample page reloaded after the answer arrived at clock reading 1000000: the same
button and inputs, with the storage the response callback left. -/
def reloadedPage : State :=
  { samplePage with storage := (sendResponse samplePage sampleRequest sampleResponse 1000000).storage }

/-- The sample page with only white space typed into the address input. -/
def blankAddressPage : State :=
  { samplePage with elements := [mkElement "id_email" " ", mkElement "send_msg" ""] }

/-- An answer of the send endpoint granting a cooldown of `seconds` seconds. -/
def answerWith (seconds : Int) : SendResponse :=
  { message := JS.ofString "sent", success := true, cooldownSeconds := some seconds }

/-- The sample page after a click was answered with a cooldown of 2 seconds: one countdown
runs on the button. -/
def countingPage : State := sendResponse samplePage sampleRequest (answerWith 2) 1000000

end Verification

namespace Theme

/-- The literal `'light'`. -/
def light : JSString := JS.ofString "light"

/-- The literal `'dark'`. -/
def dark : JSString := JS.ofString "dark"

/-- The page state `theme.js` reads and writes, on a page that has the `#themeToggle`
control (without it the script returns at once). `stored` is `localStorage.getItem('theme')`
(`none` for `null`); `hasMatchMedia` says whether `window.matchMedia` exists and `osDark` is
what `matchMedia('(prefers-color-scheme: dark)').matches` reads; `dataTheme` is the
attribute `data-theme` of the document element and `ariaLabel` the attribute `aria-label` of
the toggle; `hasIcon` says whether the toggle holds a `.theme-toggle-icon` element and
`icon` names the entry of `icons` drawn in it. -/
structure State where
  stored : Option JSString
  hasMatchMedia : Bool
  osDark : Bool
  dataTheme : Option JSString
  ariaLabel : Option JSString
  hasIcon : Bool
  icon : Option JSString
  deriving DecidableEq, Repr

/-- Models `systemTheme`. -/
def systemTheme (s : State) : JSString :=
  if s.hasMatchMedia && s.osDark then dark else light

/-- Models `resolveTheme`. -/
def resolveTheme (s : State) : JSString :=
  match s.stored with
  | none => systemTheme s
  | some stored => if stored == light || stored == dark then stored else systemTheme s

/-- The flip the script computes in two places: `theme === 'dark' ? 'light' : 'dark'`. -/
def opposite (theme : JSString) : JSString :=
  if theme == dark then light else dark

/-- Models `setToggleState`. -/
def setToggleState (s : State) (theme : JSString) : State :=
  let next := opposite theme
  let label :=
    if next == dark then JS.ofString "切换到夜间模式" else JS.ofString "切换到日间模式"
  let s1 := { s with ariaLabel := some label }
  if s1.hasIcon then { s1 with icon := some (if theme == dark then dark else light) } else s1

/-- Models `applyTheme`. -/
def applyTheme (s : State) (theme : JSString) : State :=
  setToggleState { s with dataTheme := some theme } theme

/-- The `click` handler of the toggle. -/
def toggleClick (s : State) : State :=
  let current := resolveTheme s
  let next := opposite current
  applyTheme { s with stored := some next } next

/-- A change of the OS colour scheme to `osDark`, followed by the `change` handler, which is
registered only when `window.matchMedia` exists. -/
def osChange (s : State) (osDark : Bool) : State :=
  let s1 := { s with osDark := osDark }
  if !s1.hasMatchMedia then s1
  else
    let explicit := match s1.stored with
      | none => false
      | some stored => JS.truthy stored
    if !explicit then applyTheme s1 (systemTheme s1) else s1

/-- The last statement of the script, run on page load: `applyTheme(resolveTheme())`. -/
def load (s : State) : State := applyTheme s (resolveTheme s)

/-- The events after page load. -/
inductive Event where
  | click
  | osChange (osDark : Bool)
  deriving DecidableEq, Repr

/-- One event handled. -/
def step (s : State) : Event → State
  | .click => toggleClick s
  | .osChange osDark => osChange s osDark

/-- Page load followed by a sequence of events. -/
def run (s : State) (events : List Event) : State :=
  events.foldl step (load s)

/-- The invariant of the specification: the applied theme is the effective theme. -/
def applied (s : State) : Prop := s.dataTheme = some (resolveTheme s)

/-- Stored values on which `resolveTheme` and the `change` handler agree: nothing or the
empty string (follow the OS), or one of the two themes. -/
def storedUsable (s : State) : Prop :=
  s.stored = none ∨ s.stored = some [] ∨ s.stored = some light ∨ s.stored = some dark

/-- A page of a browser set to the light scheme, whose storage holds `auto` under `theme`. -/
def autoStored : State :=
  { stored := some (JS.ofString "auto"), hasMatchMedia := true, osDark := false,
    dataTheme := none, ariaLabel := none, hasIcon := true, icon := none }

end Theme

namespace ShopBinding

theorem testDigitsOnly_iff (s : JSString) :
    testDigitsOnly s = true ↔ s ≠ [] ∧ ∀ c ∈ s, JS.isDigit c = true := by
  induction s with
  | nil => simp [testDigitsOnly]
  | cons a t ih =>
    cases t with
    | nil => simp [testDigitsOnly]
    | cons b u =>
      have hstep : testDigitsOnly (a :: b :: u) = (JS.isDigit a && testDigitsOnly (b :: u)) := by
        simp [testDigitsOnly]
      rw [hstep, Bool.and_eq_true, ih]
      simp

theorem isDigit_iff (c : Nat) : JS.isDigit c = true ↔ 48 ≤ c ∧ c ≤ 57 := by
  simp [JS.isDigit]

theorem validateContactPhone_normalized (value : JSString) :
    validateContactPhone value = true ↔
      value ≠ [] ∧ (∀ c ∈ normalizePhone value, 48 ≤ c ∧ c ≤ 57) ∧
        7 ≤ (normalizePhone value).length ∧ (normalizePhone value).length ≤ 15 := by
  unfold validateContactPhone
  cases value with
  | nil => simp [JS.truthy]
  | cons a t =>
    simp only [JS.truthy, List.isEmpty_cons, Bool.not_false, Bool.not_true, Bool.false_eq_true,
      if_false, Bool.and_eq_true, decide_eq_true_eq, testDigitsOnly_iff, isDigit_iff]
    constructor
    · rintro ⟨⟨⟨_, h⟩, h7⟩, h15⟩
      exact ⟨by simp, h, h7, h15⟩
    · rintro ⟨_, h, h7, h15⟩
      refine ⟨⟨⟨?_, h⟩, h7⟩, h15⟩
      intro h0
      rw [h0] at h7
      simp at h7

/-- The normalisation in the words of the specification, without the helpers of the code:
`digits` is what remains of `value` once every white-space code unit and every `-` is
removed (by a plain filter) and then one leading `+` (code unit 43) is taken off. -/
theorem normalizePhone_eq_iff (value digits : JSString)
    (hd : ∀ c ∈ digits, 48 ≤ c ∧ c ≤ 57) :
    normalizePhone value = digits ↔
      (value.filter (fun c => !(JS.isWhiteSpace c || c == 45)) = digits ∨
       value.filter (fun c => !(JS.isWhiteSpace c || c == 45)) = 43 :: digits) := by
  unfold normalizePhone stripSpacesAndDashes
  generalize value.filter (fun c => !(JS.isWhiteSpace c || c == 45)) = stripped
  cases stripped with
  | nil =>
    constructor
    · intro h; left; simpa [stripLeadingPlus] using h
    · intro h
      rcases h with h | h
      · simpa [stripLeadingPlus] using h
      · cases h
  | cons c rest =>
    by_cases hc : c = 43
    · subst hc
      constructor
      · intro h
        right
        simp only [stripLeadingPlus] at h
        rw [h]
      · intro h
        rcases h with h | h
        · have := hd 43 (by rw [← h]; exact List.mem_cons_self _ _)
          omega
        · simp only [List.cons.injEq, true_and] at h
          simp only [stripLeadingPlus]
          exact h
    · have hstrip : stripLeadingPlus (c :: rest) = c :: rest := by
        unfold stripLeadingPlus
        split
        · rename_i heq
          simp only [List.cons.injEq] at heq
          exact absurd heq.1 hc
        · rfl
      rw [hstrip]
      constructor
      · intro h; left; exact h
      · intro h
        rcases h with h | h
        · exact h
        · simp only [List.cons.injEq] at h
          exact absurd h.1 hc

/-- C1: the phone validator accepts a value exactly when the value is non-empty and what
remains after removing every white-space code unit and every `-`, and then one leading `+`,
consists only of the digits 0-9 and has between 7 and 15 code units; so every accepted value
normalises to 7 to 15 digits. The examples fix the removal: spaces, dashes, a tab, a
no-break space and one leading `+` are dropped, a second `+` or a `+` inside is not. -/
theorem validateContactPhone_iff :
    (∀ value : JSString, validateContactPhone value = true ↔
      value ≠ [] ∧ ∃ digits : JSString,
        (value.filter (fun c => !(JS.isWhiteSpace c || c == 45)) = digits ∨
         value.filter (fun c => !(JS.isWhiteSpace c || c == 45)) = 43 :: digits) ∧
        (∀ c ∈ digits, 48 ≤ c ∧ c ≤ 57) ∧ 7 ≤ digits.length ∧ digits.length ≤ 15) ∧
    normalizePhone (JS.ofString "+86 138-0013-8000") = JS.ofString "8613800138000" ∧
    validateContactPhone (JS.ofString "+86 138-0013-8000") = true ∧
    validateContactPhone (JS.ofString " +8613800138000") = true ∧
    validateContactPhone ([9, 49, 50, 51, 0xA0, 52, 53, 0x3000, 54, 55, 10]) = true ∧
    validateContactPhone (JS.ofString "++8613800138000") = false ∧
    validateContactPhone (JS.ofString "86138+00138000") = false ∧
    validateContactPhone (JS.ofString "138 0013 800a") = false ∧
    validateContactPhone (JS.ofString "12-34-56") = false ∧
    validateContactPhone (JS.ofString "123456789012345") = true ∧
    validateContactPhone (JS.ofString "1234567890123456") = false ∧
    validateContactPhone (JS.ofString " - ") = false ∧
    validateContactPhone [] = false := by
  refine ⟨?_, by decide, by decide, by decide, by decide, by decide, by decide, by decide,
    by decide, by decide, by decide, by decide, by decide⟩
  intro value
  rw [validateContactPhone_normalized]
  constructor
  · rintro ⟨hne, hd, h7, h15⟩
    exact ⟨hne, normalizePhone value, (normalizePhone_eq_iff value _ hd).mp rfl, hd, h7, h15⟩
  · rintro ⟨hne, digits, hform, hd, h7, h15⟩
    have heq := (normalizePhone_eq_iff value digits hd).mpr hform
    rw [heq]
    exact ⟨hne, hd, h7, h15⟩

theorem validateRequestedShopName_trim (value : JSString) :
    validateRequestedShopName value = true ↔
      2 ≤ (JS.trim value).length ∧ (JS.trim value).length ≤ 120 ∧
        ∀ c ∈ JS.trim value, c ≠ 60 ∧ c ≠ 62 ∧ c ≠ 47 ∧ c ≠ 92 := by
  unfold validateRequestedShopName
  generalize JS.trim value = trimmed
  have hforb : testForbiddenChars trimmed = false ↔
      ∀ c ∈ trimmed, c ≠ 60 ∧ c ≠ 62 ∧ c ≠ 47 ∧ c ≠ 92 := by
    simp [testForbiddenChars, List.any_eq_false, not_or, and_assoc]
  have hempty : JS.truthy trimmed = false ↔ trimmed.length = 0 := by
    cases trimmed <;> simp [JS.truthy]
  by_cases h0 : JS.truthy trimmed = false
  · have := hempty.mp h0
    simp [h0]
    omega
  · have hpos : trimmed.length ≠ 0 := fun h => h0 (hempty.mpr h)
    simp only [Bool.not_eq_false] at h0
    by_cases h2 : trimmed.length < 2
    · simp [h0, h2]
    · by_cases h120 : trimmed.length > 120
      · simp [h0, h120]
      · simp only [h0, h2, h120, Bool.not_true, Bool.false_eq_true, if_false, decide_False,
          Bool.or_self, Bool.not_eq_true', hforb]
        constructor
        · intro h
          exact ⟨by omega, by omega, h⟩
        · rintro ⟨_, _, h⟩
          exact h

theorem dropWhile_of_head {α : Type} (p : α → Bool) (l : List α)
    (h : ∀ c, l.head? = some c → p c = false) : l.dropWhile p = l := by
  cases l with
  | nil => rfl
  | cons a t =>
    have := h a rfl
    simp [List.dropWhile_cons, this]

/-- What `trim` returns sits in the value between a run of white space and a run of white
space, and neither starts nor ends with white space. -/
theorem trim_decomp (value : JSString) :
    ∃ lead trail : JSString, value = lead ++ JS.trim value ++ trail ∧
      (∀ c ∈ lead, JS.isWhiteSpace c = true) ∧ (∀ c ∈ trail, JS.isWhiteSpace c = true) ∧
      (∀ c, (JS.trim value).head? = some c → JS.isWhiteSpace c = false) ∧
      (∀ c, (JS.trim value).getLast? = some c → JS.isWhiteSpace c = false) := by
  have h1 := List.takeWhile_append_dropWhile JS.isWhiteSpace value
  have h2 := List.takeWhile_append_dropWhile JS.isWhiteSpace
    (value.dropWhile JS.isWhiteSpace).reverse
  have hsplit : value.dropWhile JS.isWhiteSpace =
      JS.trim value ++
        ((value.dropWhile JS.isWhiteSpace).reverse.takeWhile JS.isWhiteSpace).reverse := by
    have := congrArg List.reverse h2
    rw [List.reverse_append, List.reverse_reverse] at this
    exact this.symm
  have hlast : ∀ c, (JS.trim value).getLast? = some c → JS.isWhiteSpace c = false := by
    intro c hc
    unfold JS.trim at hc
    rw [List.getLast?_reverse] at hc
    have := List.head?_dropWhile_not JS.isWhiteSpace (value.dropWhile JS.isWhiteSpace).reverse
    rw [hc] at this
    exact this
  have hhead : ∀ c, (JS.trim value).head? = some c → JS.isWhiteSpace c = false := by
    intro c hc
    have hne : JS.trim value ≠ [] := by
      intro h0
      rw [h0] at hc
      cases hc
    have hh : (value.dropWhile JS.isWhiteSpace).head? = some c := by
      rw [hsplit, List.head?_append_of_ne_nil _ hne, hc]
    have := List.head?_dropWhile_not JS.isWhiteSpace value
    rw [hh] at this
    exact this
  refine ⟨value.takeWhile JS.isWhiteSpace,
    ((value.dropWhile JS.isWhiteSpace).reverse.takeWhile JS.isWhiteSpace).reverse,
    ?_, ?_, ?_, hhead, hlast⟩
  · rw [List.append_assoc, ← hsplit, h1]
  · intro c hc
    exact List.mem_takeWhile_imp hc
  · intro c hc
    exact List.mem_takeWhile_imp (List.mem_reverse.mp hc)

/-- A non-empty core between two runs of white space, itself without white space at either
end, is what `trim` returns. -/
theorem trim_unique (lead core trail : JSString)
    (hl : ∀ c ∈ lead, JS.isWhiteSpace c = true) (ht : ∀ c ∈ trail, JS.isWhiteSpace c = true)
    (hh : ∀ c, core.head? = some c → JS.isWhiteSpace c = false)
    (hlast : ∀ c, core.getLast? = some c → JS.isWhiteSpace c = false)
    (hne : core ≠ []) :
    JS.trim (lead ++ core ++ trail) = core := by
  unfold JS.trim
  have h1 : (lead ++ core ++ trail).dropWhile JS.isWhiteSpace = core ++ trail := by
    rw [List.append_assoc, List.dropWhile_append_of_pos hl]
    apply dropWhile_of_head
    intro c hc
    rw [List.head?_append_of_ne_nil _ hne] at hc
    exact hh c hc
  rw [h1, List.reverse_append]
  have h2 : (trail.reverse ++ core.reverse).dropWhile JS.isWhiteSpace = core.reverse := by
    rw [List.dropWhile_append_of_pos (fun c hc => ht c (List.mem_reverse.mp hc))]
    apply dropWhile_of_head
    intro c hc
    rw [List.head?_reverse] at hc
    exact hlast c hc
  rw [h2, List.reverse_reverse]

/-- C2: the shop-name validator accepts a value exactly when the value, with the white space
at both ends taken off, has between 2 and 120 code units and none of them is `<`, `>`, `/`
or `\`. The trimmed value is stated without the code's `trim`: it is the core left between a
leading and a trailing run of white space that itself neither starts nor ends with white
space. `"A"`, `" A"` and 121 times `A` are rejected; `"Valid Shop"`, also with white space
around it, and 119 times `A` followed by two spaces are accepted. -/
theorem validateRequestedShopName_iff :
    (∀ value : JSString, validateRequestedShopName value = true ↔
      ∃ lead core trail : JSString, value = lead ++ core ++ trail ∧
        (∀ c ∈ lead, JS.isWhiteSpace c = true) ∧ (∀ c ∈ trail, JS.isWhiteSpace c = true) ∧
        (∀ c, core.head? = some c → JS.isWhiteSpace c = false) ∧
        (∀ c, core.getLast? = some c → JS.isWhiteSpace c = false) ∧
        2 ≤ core.length ∧ core.length ≤ 120 ∧
        ∀ c ∈ core, c ≠ 60 ∧ c ≠ 62 ∧ c ≠ 47 ∧ c ≠ 92) ∧
    JS.trim (JS.ofString "  Valid Shop \t") = JS.ofString "Valid Shop" ∧
    validateRequestedShopName (JS.ofString "A") = false ∧
    validateRequestedShopName (JS.ofString " A") = false ∧
    validateRequestedShopName (JS.ofString "A ") = false ∧
    validateRequestedShopName (List.replicate 121 65) = false ∧
    validateRequestedShopName (List.replicate 120 65) = true ∧
    validateRequestedShopName (List.replicate 119 65 ++ [32, 32]) = true ∧
    validateRequestedShopName ([0x3000, 9] ++ List.replicate 120 65 ++ [10, 0xA0]) = true ∧
    validateRequestedShopName (JS.ofString "Valid Shop") = true ∧
    validateRequestedShopName (JS.ofString "  Valid Shop \t") = true ∧
    validateRequestedShopName (JS.ofString "A B") = true ∧
    validateRequestedShopName (JS.ofString "Shop<1>") = false ∧
    validateRequestedShopName (JS.ofString "a/b") = false ∧
    validateRequestedShopName (JS.ofString "a\\b") = false ∧
    validateRequestedShopName (JS.ofString "   ") = false := by
  refine ⟨?_, by decide, by decide, by decide, by decide, by decide, by decide, by decide,
    by decide, by decide, by decide, by decide, by decide, by decide, by decide, by decide⟩
  intro value
  rw [validateRequestedShopName_trim]
  constructor
  · rintro ⟨h2, h120, hforb⟩
    obtain ⟨lead, trail, hval, hl, ht, hh, hlast⟩ := trim_decomp value
    exact ⟨lead, JS.trim value, trail, hval, hl, ht, hh, hlast, h2, h120, hforb⟩
  · rintro ⟨lead, core, trail, hval, hl, ht, hh, hlast, h2, h120, hforb⟩
    have hne : core ≠ [] := by
      intro h0
      rw [h0] at h2
      simp at h2
    rw [hval, trim_unique lead core trail hl ht hh hlast hne]
    exact ⟨h2, h120, hforb⟩

theorem find?_updateFirst {α : Type} (p : α → Bool) (f : α → α)
    (hp : ∀ c, p (f c) = p c) (l : List α) :
    (JS.updateFirst p f l).find? p = (l.find? p).map f := by
  induction l with
  | nil => rfl
  | cons a t ih =>
    by_cases h : p a = true
    · have h2 : p (f a) = true := by rw [hp]; exact h
      simp [JS.updateFirst, h, List.find?_cons, h2]
    · simp only [Bool.not_eq_true] at h
      simp [JS.updateFirst, h, List.find?_cons, ih]

theorem authorizationInput_sync (s : State) :
    authorizationInput (syncAuthorizationState s) =
      (authorizationInput s).map (fun c => { c with required := identityNeedsAuthorization s }) := by
  unfold syncAuthorizationState
  cases h : authorizationInput s with
  | none => simp [h]
  | some c =>
    simp only [authorizationInput, queryById] at h ⊢
    rw [find?_updateFirst (fun c : Control => c.id == authorizationNoteId)
      (fun c : Control => { c with required := identityNeedsAuthorization s }) (fun _ => rfl), h]

theorem identityNeedsAuthorization_iff (s : State) :
    identityNeedsAuthorization s = true ↔ ∃ v, selectedIdentity s = some v ∧ v ≠ OWNER := by
  unfold identityNeedsAuthorization selectedIdentity
  cases checkedIdentity s with
  | none => simp
  | some c => simp

/-- C3 as stated fails: on a form where no identity radio is checked the selected identity
is not `OWNER`, yet `syncAuthorizationState` leaves the note not required and the validator
accepts the empty note. -/
theorem authorization_not_required_without_selection :
    ¬ (((authorizationInput (syncAuthorizationState noIdentityChecked)).map (fun c => c.required)
          = some true ↔ selectedIdentity noIdentityChecked ≠ some OWNER) ∧
        (validateAuthorizationNote noIdentityChecked [] = false ↔
          selectedIdentity noIdentityChecked ≠ some OWNER)) := by
  decide

/-- C3 (amended): the authorization note is required exactly when some identity radio is
checked and its value differs from `OWNER`. `syncAuthorizationState` keeps the note input
and sets its `required` flag to true exactly in that case, and the validator rejects a note
exactly when the note is blank (empty after trimming) and that case holds. -/
theorem authorization_required_iff (s : State) :
    ((authorizationInput (syncAuthorizationState s)).isSome = (authorizationInput s).isSome) ∧
    (∀ c, authorizationInput (syncAuthorizationState s) = some c →
      (c.required = true ↔ ∃ v, selectedIdentity s = some v ∧ v ≠ OWNER)) ∧
    (∀ note, validateAuthorizationNote s note = false ↔
      (JS.trim note = [] ∧ ∃ v, selectedIdentity s = some v ∧ v ≠ OWNER)) := by
  refine ⟨?_, ?_, ?_⟩
  · rw [authorizationInput_sync]; simp
  · intro c hc
    rw [authorizationInput_sync] at hc
    cases h : authorizationInput s with
    | none => simp [h] at hc
    | some c0 =>
      simp only [h, Option.map_some', Option.some.injEq] at hc
      subst hc
      exact identityNeedsAuthorization_iff s
  · intro note
    rw [← identityNeedsAuthorization_iff]
    unfold validateAuthorizationNote
    cases identityNeedsAuthorization s <;> cases h : JS.trim note <;> simp [JS.truthy]

/-- Witness for C3: with `MANAGER` checked the note input is required after the sync. -/
theorem authorization_required_iff_witness :
    authorizationInput (syncAuthorizationState managerChecked) =
        some { noteInput with required := true } ∧
      (({ noteInput with required := true } : Control).required = true ↔
        ∃ v, selectedIdentity managerChecked = some v ∧ v ≠ OWNER) :=
  ⟨by decide,
    (authorization_required_iff managerChecked).2.1 { noteInput with required := true }
      (by decide)⟩

theorem syncAuthorizationState_attachmentStore (s : State) :
    (syncAuthorizationState s).attachmentStore = s.attachmentStore := by
  unfold syncAuthorizationState
  cases authorizationInput s <;> rfl

theorem changeHandler_length (s : State) (incoming : List File)
    (h : s.attachmentStore.length ≤ 5) : (changeHandler s incoming).attachmentStore.length ≤ 5 := by
  unfold changeHandler
  cases firstRejection incoming with
  | some text => exact h
  | none =>
    simp only [syncAndRender]
    split
    · simp [List.length_take]
    · omega

theorem removeClick_length (s : State) (index : Nat) :
    (removeClick s index).attachmentStore.length ≤ s.attachmentStore.length := by
  simp only [removeClick, syncAndRender, List.length_eraseIdx]
  split <;> omega

theorem resetClick_length (s : State) (confirmed : Bool) :
    (resetClick s confirmed).attachmentStore.length ≤ s.attachmentStore.length := by
  unfold resetClick
  cases confirmed
  · simp
  · cases h1 : s.hasSearchResults <;> cases h2 : s.hasAttachmentPreview <;>
      simp [h1, h2, syncAuthorizationState_attachmentStore]

theorem attachmentStep_length (s : State) (e : AttachmentEvent)
    (h : s.attachmentStore.length ≤ 5) : (attachmentStep s e).attachmentStore.length ≤ 5 := by
  cases e with
  | change incoming => exact changeHandler_length s incoming h
  | remove index => exact le_trans (removeClick_length s index) h
  | reset confirmed => exact le_trans (resetClick_length s confirmed) h

theorem attachmentRun_length (events : List AttachmentEvent) (s : State)
    (h : s.attachmentStore.length ≤ 5) : (attachmentRun s events).attachmentStore.length ≤ 5 := by
  induction events generalizing s with
  | nil => exact h
  | cons e rest ih => exact ih (attachmentStep s e) (attachmentStep_length s e h)

/-- C4: starting from an empty staging list, after any sequence of change events (batches of
any size), remove clicks (any row index) and resets, the staging list holds at most 5
files. -/
theorem attachmentStore_never_exceeds_five (s : State) (events : List AttachmentEvent)
    (h : s.attachmentStore = []) : (attachmentRun s events).attachmentStore.length ≤ 5 :=
  attachmentRun_length events s (by simp [h])

/-- Witness for C4: two batches of four files, a removal and a declined reset. -/
theorem attachmentStore_never_exceeds_five_witness :
    (mkState []).attachmentStore = [] ∧
      (attachmentRun (mkState [])
        [ .change (List.replicate 4 ⟨JS.ofString "a.png", 10⟩),
          .change (List.replicate 4 ⟨JS.ofString "b.PDF", 20⟩),
          .remove 0, .reset false ]).attachmentStore.length ≤ 5 :=
  ⟨rfl, attachmentStore_never_exceeds_five (mkState []) _ rfl⟩

theorem firstRejection_isSome (incoming : List File)
    (h : ∃ f ∈ incoming, fileExt f ∉ allowed ∨ f.size > maxFileSize) :
    (firstRejection incoming).isSome = true := by
  induction incoming with
  | nil => simp at h
  | cons a t ih =>
    unfold firstRejection
    by_cases h1 : fileExt a ∈ allowed
    · by_cases h2 : a.size > maxFileSize
      · simp [h1, h2]
      · have hstep : (if (!allowed.contains (fileExt a)) = true
              then some (JS.ofString "仅支持 JPG / PNG / PDF 文件。")
            else if a.size > maxFileSize then some (JS.ofString "单个文件不得超过 5MB。")
            else firstRejection t) = firstRejection t := by
          simp [h1, h2]
        rw [hstep]
        apply ih
        obtain ⟨f, hf, hbad⟩ := h
        rcases List.mem_cons.mp hf with rfl | hft
        · rcases hbad with hb | hb
          · exact absurd h1 hb
          · exact absurd hb h2
        · exact ⟨f, hft, hbad⟩
    · simp [h1]

/-- With the extension the code computes (`fileExt`: for a name without `.`, the whole name),
a batch holding a file whose extension is not allowed or whose size exceeds 5 MB leaves the
staging list as it was. -/
theorem changeHandler_rejects_batch (s : State) (incoming : List File)
    (h : ∃ f ∈ incoming, fileExt f ∉ allowed ∨ f.size > maxFileSize) :
    (changeHandler s incoming).attachmentStore = s.attachmentStore := by
  have := firstRejection_isSome incoming h
  unfold changeHandler
  cases hr : firstRejection incoming with
  | none => simp [hr] at this
  | some text => rfl

theorem splitOnDot_ne_nil (name : JSString) : splitOnDot name ≠ [] := by
  cases name with
  | nil => simp [splitOnDot]
  | cons c rest =>
    unfold splitOnDot
    split
    · simp
    · split <;> simp

theorem splitOnDot_no_dot (name : JSString) (h : 46 ∉ name) : splitOnDot name = [name] := by
  induction name with
  | nil => rfl
  | cons c rest ih =>
    have hc : (c == 46) = false := by
      simp only [beq_eq_false_iff_ne, ne_eq]
      intro hc
      exact h (by simp [hc])
    have hrest : 46 ∉ rest := fun hm => h (List.mem_cons_of_mem c hm)
    rw [splitOnDot, ih hrest]
    simp [hc]

theorem splitOnDot_dot (name : JSString) (h : 46 ∈ name) :
    ∃ piece next pieces, splitOnDot name = piece :: next :: pieces := by
  induction name with
  | nil => simp at h
  | cons c rest ih =>
    by_cases hrest : 46 ∈ rest
    · obtain ⟨piece, next, pieces, hs⟩ := ih hrest
      rw [splitOnDot, hs]
      by_cases hc : (c == 46) = true
      · exact ⟨[], piece, next :: pieces, by simp [hc]⟩
      · exact ⟨c :: piece, next, pieces, by simp [hc]⟩
    · have hc : c = 46 := by
        rcases List.mem_cons.mp h with hc | hc
        · exact hc.symm
        · exact absurd hc hrest
      rw [splitOnDot, splitOnDot_no_dot rest hrest]
      exact ⟨[], rest, [], by simp [hc]⟩

theorem takeWhile_append_of_neg {α : Type} (p : α → Bool) (l m : List α)
    (h : ∃ x ∈ l, p x = false) : (l ++ m).takeWhile p = l.takeWhile p := by
  induction l with
  | nil => simp at h
  | cons a t ih =>
    by_cases ha : p a = true
    · obtain ⟨x, hx, hpx⟩ := h
      have hxt : x ∈ t := by
        rcases List.mem_cons.mp hx with rfl | hxt
        · rw [ha] at hpx; cases hpx
        · exact hxt
      simp [List.takeWhile_cons, ha, ih ⟨x, hxt, hpx⟩]
    · simp [List.takeWhile_cons, ha]

/-- The piece `split('.').pop()` returns is the text after the last `.`, and the whole name
when the name has no `.`. -/
theorem getLastD_splitOnDot (name : JSString) :
    (splitOnDot name).getLastD [] = (name.reverse.takeWhile (fun c => c != 46)).reverse := by
  induction name with
  | nil => rfl
  | cons c rest ih =>
    by_cases hrest : 46 ∈ rest
    · obtain ⟨piece, next, pieces, hs⟩ := splitOnDot_dot rest hrest
      have hlast : (splitOnDot (c :: rest)).getLastD [] = (splitOnDot rest).getLastD [] := by
        rw [splitOnDot, hs]
        by_cases hc : (c == 46) = true <;> simp [hc, List.getLastD_cons]
      have htake : ((c :: rest).reverse.takeWhile (fun c => c != 46)) =
          rest.reverse.takeWhile (fun c => c != 46) := by
        rw [List.reverse_cons]
        exact takeWhile_append_of_neg _ _ _ ⟨46, by simpa using hrest, by simp⟩
      rw [hlast, htake, ih]
    · have hall : ∀ a ∈ rest.reverse, (fun c => c != 46) a = true := by
        intro a ha
        simp only [bne_iff_ne, ne_eq]
        intro h46
        exact hrest (by simpa [h46] using ha)
      rw [splitOnDot, splitOnDot_no_dot rest hrest, List.reverse_cons,
        List.takeWhile_append_of_pos hall]
      by_cases hc : c = 46
      · simp [hc, List.getLastD_cons]
      · have hb : (c == 46) = false := by simpa using hc
        simp [hb, hc, List.getLastD_cons, List.takeWhile_cons]

/-- On a name that has a `.` the extension the code computes is the specification's. -/
theorem specExtension_of_dot (file : File) (h : 46 ∈ file.name) :
    specExtension file.name = some (fileExt file) := by
  have hc : file.name.contains 46 = true := by simpa using h
  unfold specExtension fileExt
  rw [if_pos hc, getLastD_splitOnDot]

/-- When every name of the batch has a `.`, a batch holding a file that the specification
rejects leaves the staging list as it was. -/
theorem changeHandler_rejects_dotted_batch (s : State) (incoming : List File)
    (hdot : ∀ f ∈ incoming, 46 ∈ f.name)
    (h : ∃ f ∈ incoming, specRejects f = true) :
    (changeHandler s incoming).attachmentStore = s.attachmentStore := by
  apply changeHandler_rejects_batch
  obtain ⟨f, hf, hrej⟩ := h
  refine ⟨f, hf, ?_⟩
  simp only [specRejects, specExtension_of_dot f (hdot f hf), Bool.or_eq_true, Bool.not_eq_true',
    decide_eq_true_eq] at hrej
  rcases hrej with hrej | hrej
  · left
    simpa using hrej
  · right
    exact hrej

/-- C5 fails on the code for a file named `pdf`, which has no `.` and so no extension: the
specification rejects it, but the change handler takes the whole name as the extension and
appends the file to the staging list. -/
theorem changeHandler_accepts_name_without_dot :
    specExtension (JS.ofString "pdf") = none ∧
    specRejects ⟨JS.ofString "pdf", 1024⟩ = true ∧
    fileExt ⟨JS.ofString "pdf", 1024⟩ = JS.ofString "pdf" ∧
    (changeHandler (mkState []) [⟨JS.ofString "pdf", 1024⟩]).attachmentStore =
      [⟨JS.ofString "pdf", 1024⟩] := by
  decide

theorem setFieldState_draft (s : State) (field : Field) (isValid : Bool) :
    (setFieldState s field isValid).draft = s.draft := by
  unfold setFieldState
  cases queryById s field.elId <;> rfl

theorem validateFields_draft (fields : List Field) (s : State) (errors : List JSString) :
    (validateFields fields s errors).1.draft = s.draft := by
  induction fields generalizing s errors with
  | nil => rfl
  | cons field rest ih =>
    simp only [validateFields]
    rw [ih, setFieldState_draft]

theorem validateForm_draft (s : State) : (validateForm s).1.draft = s.draft := by
  have h := validateFields_draft fieldMap s []
  unfold validateForm
  generalize validateFields fieldMap s [] = r at h
  obtain ⟨s1, errors⟩ := r
  simp only at h ⊢
  split
  · exact h
  · split <;> exact h

theorem setFieldState_isDraftSubmit (s : State) (field : Field) (isValid : Bool) :
    (setFieldState s field isValid).isDraftSubmit = s.isDraftSubmit := by
  unfold setFieldState
  cases queryById s field.elId <;> rfl

theorem validateFields_isDraftSubmit (fields : List Field) (s : State) (errors : List JSString) :
    (validateFields fields s errors).1.isDraftSubmit = s.isDraftSubmit := by
  induction fields generalizing s errors with
  | nil => rfl
  | cons field rest ih =>
    simp only [validateFields]
    rw [ih, setFieldState_isDraftSubmit]

theorem validateForm_isDraftSubmit (s : State) :
    (validateForm s).1.isDraftSubmit = s.isDraftSubmit := by
  have h := validateFields_isDraftSubmit fieldMap s []
  unfold validateForm
  generalize validateFields fieldMap s [] = r at h
  obtain ⟨s1, errors⟩ := r
  simp only at h ⊢
  split
  · exact h
  · split <;> exact h

theorem submitProceed_draft (s : State) :
    (submitProceed s).draft = if s.isDraftSubmit then s.draft else none := by
  unfold submitProceed
  cases h : s.isDraftSubmit <;> simp [h]

theorem saveDraftClick_draft (s : State) :
    (saveDraftClick s).draft = s.draft ∧ (saveDraftClick s).isDraftSubmit = true := by
  simp [saveDraftClick]

/-- The save-draft action never writes the storage entry `draftKey`: whatever the form
holds, the stored draft after the click and its submit event is the one before. -/
theorem dispatchSubmit_draft_submit (s : State) (h : s.isDraftSubmit = true) :
    dispatchSubmit s = (submitProceed s, SubmitResult.submitted) := by
  unfold dispatchSubmit submitHandler
  simp [h]

theorem saveDraftAction_draft (s : State) : (saveDraftAction s).1.draft = s.draft := by
  unfold saveDraftAction
  simp only
  split
  · split
    · rw [dispatchSubmit_draft_submit _ (saveDraftClick_draft s).2]
      simp [submitProceed_draft, (saveDraftClick_draft s).2, (saveDraftClick_draft s).1]
    · exact (saveDraftClick_draft s).1
  · exact (saveDraftClick_draft s).1

/-- C6 fails on the code: on a filled-in form with nothing in storage, `collectDraft` would
yield the field values, but the save-draft action stores nothing (the script never calls
`collectDraft` and never writes `draftKey`), so on the next load `restoreDraft` restores
nothing: a form rendered with an empty shop name keeps it empty. -/
theorem saveDraft_stores_no_draft :
    collectDraft filledFormNoDraft =
      [ (JS.ofString "requested_shop_name", JS.ofString "Valid Shop"),
        (JS.ofString "mall_name", JS.ofString "Mall 1"),
        (JS.ofString "contact_name", JS.ofString "Li"),
        (JS.ofString "contact_phone", JS.ofString "+86 138-0013-8000"),
        (JS.ofString "role_requested", JS.ofString "MANAGER"),
        (JS.ofString "identity_type", JS.ofString "OWNER"),
        (JS.ofString "authorization_note", []) ] ∧
    (saveDraftAction filledFormNoDraft).1.draft = none ∧
    (saveDraftAction filledFormNoDraft).2 = SubmitResult.submitted ∧
    restoreDraft { formWith "" with draft := (saveDraftAction filledFormNoDraft).1.draft } =
      { formWith "" with draft := none } := by
  decide

/-- C7: the submit handler removes the stored draft when the submit is not a draft submit and
`validateForm` passes (and lets the submission through); it leaves the stored draft
unchanged when the submit is a draft submit, and when `validateForm` fails on a non-draft
submit, which it then prevents. -/
theorem submitHandler_clears_draft_iff (s : State) :
    ((s.isDraftSubmit = false ∧ (validateForm s).2 = true) →
      (submitHandler s).1.draft = none ∧ (submitHandler s).2 = false) ∧
    (s.isDraftSubmit = true → (submitHandler s).1.draft = s.draft) ∧
    ((s.isDraftSubmit = false ∧ (validateForm s).2 = false) →
      (submitHandler s).1.draft = s.draft ∧ (submitHandler s).2 = true) := by
  have hv := validateForm_draft s
  have hf := validateForm_isDraftSubmit s
  refine ⟨?_, ?_, ?_⟩
  · rintro ⟨hd, hok⟩
    unfold submitHandler
    simp only [hd, Bool.not_false, if_true]
    generalize validateForm s = r at hv hf hok
    obtain ⟨s1, ok⟩ := r
    simp only at hok hv hf
    subst hok
    simp only [Bool.not_true, Bool.false_eq_true, if_false, and_true]
    rw [submitProceed_draft, hf, hd]
    rfl
  · intro hd
    unfold submitHandler
    simp [hd, submitProceed_draft]
  · rintro ⟨hd, hok⟩
    unfold submitHandler
    simp only [hd, Bool.not_false, if_true]
    generalize validateForm s = r at hv hf hok
    obtain ⟨s1, ok⟩ := r
    simp only at hok hv hf
    subst hok
    simp [hv]

/-- Witness for C7: a valid non-draft submit of the filled-in form removes its stored draft;
the same form submitted as a draft keeps it; with the shop name `A` the submit is prevented
and the draft kept. -/
theorem submitHandler_clears_draft_iff_witness :
    (filledForm.isDraftSubmit = false ∧ (validateForm filledForm).2 = true) ∧
    ((submitHandler filledForm).1.draft = none ∧ (submitHandler filledForm).2 = false) ∧
    ((saveDraftClick filledForm).isDraftSubmit = true ∧
      (submitHandler (saveDraftClick filledForm)).1.draft = (saveDraftClick filledForm).draft) ∧
    ((formWith "A").isDraftSubmit = false ∧
      (validateForm (formWith "A")).2 = false) ∧
    ((submitHandler (formWith "A")).1.draft = (formWith "A").draft ∧
      (submitHandler (formWith "A")).2 = true) :=
  ⟨by decide,
    (submitHandler_clears_draft_iff filledForm).1 (by decide),
    ⟨by decide, (submitHandler_clears_draft_iff (saveDraftClick filledForm)).2.1 (by decide)⟩,
    by decide,
    (submitHandler_clears_draft_iff (formWith "A")).2.2 (by decide)⟩

end ShopBinding

namespace JS

theorem truthy_iff (s : JSString) : truthy s = true ↔ s ≠ [] := by
  cases s <;> simp [truthy]

theorem isDigit_not_whiteSpace (c : Nat) (h : isDigit c = true) : isWhiteSpace c = false := by
  simp only [isDigit, Bool.and_eq_true, decide_eq_true_eq] at h
  simp only [isWhiteSpace, Bool.or_eq_false_iff, Bool.and_eq_false_iff, decide_eq_false_iff_not,
    beq_eq_false_iff_ne]
  omega

theorem parseDigitsPrefix_append (l m : JSString) (acc : Nat)
    (h : ∀ c ∈ l, isDigit c = true) :
    parseDigitsPrefix (l ++ m) acc = parseDigitsPrefix m (parseDigitsPrefix l acc) := by
  induction l generalizing acc with
  | nil => rfl
  | cons a t ih =>
    have ha : isDigit a = true := h a (List.mem_cons_self a t)
    have ht : ∀ c ∈ t, isDigit c = true := fun c hc => h c (List.mem_cons_of_mem a hc)
    simp only [List.cons_append, parseDigitsPrefix, ha, if_true]
    exact ih _ ht

theorem natDigits_spec (fuel n : Nat) (h : n < fuel) :
    natDigits fuel n ≠ [] ∧ (∀ c ∈ natDigits fuel n, isDigit c = true) ∧
      parseDigitsPrefix (natDigits fuel n) 0 = n := by
  induction fuel generalizing n with
  | zero => omega
  | succ fuel ih =>
    unfold natDigits
    by_cases h10 : n < 10
    · simp only [h10, if_true]
      refine ⟨by simp, ?_, ?_⟩
      · intro c hc
        simp only [List.mem_singleton] at hc
        subst hc
        simp only [isDigit, Bool.and_eq_true, decide_eq_true_eq]
        omega
      · have hd : isDigit (48 + n) = true := by
          simp only [isDigit, Bool.and_eq_true, decide_eq_true_eq]
          omega
        simp only [parseDigitsPrefix, hd, if_true]
        omega
    · simp only [h10, if_false]
      have hlt : n / 10 < fuel := by omega
      obtain ⟨_, hall, hval⟩ := ih (n / 10) hlt
      have hd : isDigit (48 + n % 10) = true := by
        simp only [isDigit, Bool.and_eq_true, decide_eq_true_eq]
        omega
      refine ⟨by simp, ?_, ?_⟩
      · intro c hc
        rcases List.mem_append.mp hc with hc | hc
        · exact hall c hc
        · simp only [List.mem_singleton] at hc
          subst hc
          exact hd
      · rw [parseDigitsPrefix_append _ _ _ hall, hval]
        simp only [parseDigitsPrefix, hd, if_true]
        omega

theorem natToString_spec (n : Nat) :
    ∃ d rest, natToString n = d :: rest ∧ isDigit d = true ∧
      parseDigitsPrefix (d :: rest) 0 = n := by
  obtain ⟨hne, hall, hval⟩ := natDigits_spec (n + 1) n (Nat.lt_succ_self n)
  unfold natToString
  cases hs : natDigits (n + 1) n with
  | nil => exact absurd hs hne
  | cons d rest =>
    rw [hs] at hall hval
    exact ⟨d, rest, rfl, hall d (List.mem_cons_self d rest), hval⟩

/-- Reading back a printed integer: `parseInt(String(i), 10)` is `i`. -/
theorem parseInt10_intToString (i : Int) : parseInt10 (intToString i) = some i := by
  unfold intToString
  by_cases hneg : i < 0
  · obtain ⟨d, rest, hs, hd, hval⟩ := natToString_spec i.natAbs
    simp only [hneg, if_true, hs]
    have h45 : isWhiteSpace 45 = false := by decide
    simp only [parseInt10, List.dropWhile_cons, h45, Bool.false_eq_true, if_false, beq_self_eq_true,
      Bool.true_or, if_true, hd, hval, Option.some.injEq]
    omega
  · obtain ⟨d, rest, hs, hd, hval⟩ := natToString_spec i.toNat
    have hws := isDigit_not_whiteSpace d hd
    have hd' := hd
    simp only [isDigit, Bool.and_eq_true, decide_eq_true_eq] at hd'
    have h1 : (d == 45) = false := by simp; omega
    have h2 : (d == 43) = false := by simp; omega
    simp only [hneg, if_false, hs, parseInt10, List.dropWhile_cons, hws, Bool.false_eq_true, h1, h2,
      Bool.or_self, hd, if_true, hval, Option.some.injEq]
    omega

theorem intToString_truthy (i : Int) : truthy (intToString i) = true := by
  unfold intToString
  by_cases hneg : i < 0
  · simp [hneg, truthy]
  · obtain ⟨d, rest, hs, _, _⟩ := natToString_spec i.toNat
    simp [hneg, hs, truthy]

end JS

namespace Verification

theorem setMessage_frame (s : State) (targetId message : JSString) (isError : Bool) :
    (setMessage s targetId message isError).button = s.button ∧
    (setMessage s targetId message isError).timers = s.timers ∧
    (setMessage s targetId message isError).storage = s.storage := by
  unfold setMessage
  split
  · exact ⟨rfl, rfl, rfl⟩
  · split <;> exact ⟨rfl, rfl, rfl⟩

theorem identifierTruthy_iff (identifier : Option JSString) :
    identifierTruthy identifier = true ↔ ∃ v, identifier = some v ∧ v ≠ [] := by
  cases identifier with
  | none => simp [identifierTruthy]
  | some v => simp [identifierTruthy, JS.truthy_iff]

/-- The branches of the send handler: when it posts and with what, that nothing else changes
then, and which call of `setMessage` each failing check makes. -/
theorem sendClick_cases (s : State) :
    ((sendClick s).2.isSome = true ↔
      s.button.dataset.scene ≠ [] ∧ channelOf s ≠ [] ∧
      (s.button.dataset.scene ≠ RESET_PASSWORD → resolveDestination s (channelOf s) ≠ []) ∧
      (s.button.dataset.scene = RESET_PASSWORD →
        ∃ v, payloadIdentifier s = some v ∧ v ≠ [])) ∧
    ((sendClick s).2.isSome = true →
      (sendClick s).1 = s ∧
      (sendClick s).2 = some
        { url := s.button.dataset.sendUrl, scene := s.button.dataset.scene,
          channel := channelOf s, destination := resolveDestination s (channelOf s),
          identifier := payloadIdentifier s }) ∧
    ((sendClick s).2 = none →
      (sendClick s).1.button = s.button ∧ (sendClick s).1.timers = s.timers ∧
      (sendClick s).1.storage = s.storage) ∧
    ((s.button.dataset.scene = [] ∨ channelOf s = []) →
      sendClick s =
        (setMessage s s.button.dataset.messageTarget (JS.ofString "请选择接收方式。") true, none)) ∧
    ((s.button.dataset.scene ≠ [] ∧ channelOf s ≠ [] ∧
        s.button.dataset.scene ≠ RESET_PASSWORD ∧ resolveDestination s (channelOf s) = []) →
      sendClick s =
        (setMessage s s.button.dataset.messageTarget (JS.ofString "请先填写接收地址。") true, none)) ∧
    ((s.button.dataset.scene = RESET_PASSWORD ∧ channelOf s ≠ [] ∧
        ¬ (∃ v, payloadIdentifier s = some v ∧ v ≠ [])) →
      sendClick s =
        (setMessage s s.button.dataset.messageTarget (JS.ofString "请先填写账号标识。") true, none)) := by
  have hreset : JS.truthy RESET_PASSWORD = true := by decide
  have hid : (∃ v, payloadIdentifier s = some v ∧ v ≠ []) ↔
      identifierTruthy (payloadIdentifier s) = true := (identifierTruthy_iff _).symm
  have hne : ∀ x : JSString, x = [] ↔ JS.truthy x = false := by
    intro x; cases x <;> simp [JS.truthy]
  rw [hid]
  simp only [ne_eq, hne]
  unfold sendClick
  by_cases h1 : JS.truthy s.button.dataset.scene = true
  · by_cases h2 : JS.truthy (channelOf s) = true
    · by_cases h3 : s.button.dataset.scene = RESET_PASSWORD
      · by_cases h4 : identifierTruthy (payloadIdentifier s) = true
        · simp [h1, h2, h3, h4, hreset]
        · simp only [Bool.not_eq_true] at h4
          simp [h1, h2, h3, h4, hreset, setMessage_frame]
      · by_cases h5 : JS.truthy (resolveDestination s (channelOf s)) = true
        · simp [h1, h2, h3, h5]
        · simp only [Bool.not_eq_true] at h5
          simp [h1, h2, h3, h5, setMessage_frame]
    · simp only [Bool.not_eq_true] at h2
      simp [h1, h2, setMessage_frame]
  · simp only [Bool.not_eq_true] at h1
    simp [h1, setMessage_frame]
    intro h
    rw [h] at h1
    simp [hreset] at h1

/-- The effect of `setMessage` with an error: when the target id is non-empty and an element
carries it, the first such element gets the message as its text, the class `text-danger`
and loses `text-muted`. -/
theorem setMessage_shows (s : State) (targetId message : JSString) (isError : Bool)
    (el : Element) (ht : JS.truthy targetId = true)
    (hel : s.elements.find? (fun e => e.id == targetId) = some el) :
    (setMessage s targetId message isError).elements.find? (fun e => e.id == targetId) =
      some { el with textContent := message, textDanger := isError, textMuted := !isError } := by
  unfold setMessage
  simp only [ht, Bool.not_true, Bool.false_eq_true, if_false, hel]
  rw [ShopBinding.find?_updateFirst (fun e : Element => e.id == targetId)
    (fun e : Element =>
      { e with textContent := message, textDanger := isError, textMuted := !isError })
    (fun _ => rfl), hel]
  rfl

/-- Without a message target (no id on the button, or no element with that id) `setMessage`
changes nothing. -/
theorem setMessage_without_target (s : State) (targetId message : JSString) (isError : Bool)
    (h : JS.truthy targetId = false ∨ s.elements.find? (fun e => e.id == targetId) = none) :
    setMessage s targetId message isError = s := by
  unfold setMessage
  rcases h with h | h
  · simp [h]
  · by_cases ht : JS.truthy targetId = true
    · simp [ht, h]
    · simp only [Bool.not_eq_true] at ht
      simp [ht]

/-- C10 as stated fails on a page whose send button has no message target element: with the
address left empty the click posts nothing, and it shows nothing either, the page is left
exactly as it was. -/
theorem sendClick_shows_nothing_without_target :
    (sendClick { samplePage with elements := [mkElement "id_email" ""] }).2 = none ∧
    (sendClick { samplePage with elements := [mkElement "id_email" ""] }).1 =
      { samplePage with elements := [mkElement "id_email" ""] } ∧
    ∀ e ∈ (sendClick { samplePage with elements := [mkElement "id_email" ""] }).1.elements,
      e.textContent = [] ∧ e.textDanger = false := by
  decide

/-- C10 (amended): the send handler posts exactly when scene and channel are non-empty, the
destination is non-empty for a scene other than `RESET_PASSWORD`, and the identifier is
non-empty for the scene `RESET_PASSWORD`; the request then carries scene, channel,
destination and the identifier and the page is untouched. Otherwise nothing is posted and
the button, its timers and the storage are untouched; when the message target of the button
exists, it then shows an error message (its text set, `text-danger` on, `text-muted` off):
`请选择接收方式。` for a missing scene or channel, else `请先填写接收地址。` for a missing
destination, else `请先填写账号标识。` for a missing identifier; without a message target
nothing is shown. The example fixes the text written on the sample page. -/
theorem sendClick_posts_iff (s : State) :
    ((sendClick s).2.isSome = true ↔
      s.button.dataset.scene ≠ [] ∧ channelOf s ≠ [] ∧
      (s.button.dataset.scene ≠ RESET_PASSWORD → resolveDestination s (channelOf s) ≠ []) ∧
      (s.button.dataset.scene = RESET_PASSWORD →
        ∃ v, payloadIdentifier s = some v ∧ v ≠ [])) ∧
    ((sendClick s).2.isSome = true →
      (sendClick s).1 = s ∧
      (sendClick s).2 = some
        { url := s.button.dataset.sendUrl, scene := s.button.dataset.scene,
          channel := channelOf s, destination := resolveDestination s (channelOf s),
          identifier := payloadIdentifier s }) ∧
    ((sendClick s).2 = none →
      (sendClick s).1.button = s.button ∧ (sendClick s).1.timers = s.timers ∧
      (sendClick s).1.storage = s.storage) ∧
    (∀ el : Element, s.button.dataset.messageTarget ≠ [] →
      s.elements.find? (fun e => e.id == s.button.dataset.messageTarget) = some el →
      ((s.button.dataset.scene = [] ∨ channelOf s = []) →
        (sendClick s).1.elements.find? (fun e => e.id == s.button.dataset.messageTarget) =
          some { el with textContent := JS.ofString "请选择接收方式。", textDanger := true,
                         textMuted := false }) ∧
      ((s.button.dataset.scene ≠ [] ∧ channelOf s ≠ [] ∧
          s.button.dataset.scene ≠ RESET_PASSWORD ∧ resolveDestination s (channelOf s) = []) →
        (sendClick s).1.elements.find? (fun e => e.id == s.button.dataset.messageTarget) =
          some { el with textContent := JS.ofString "请先填写接收地址。", textDanger := true,
                         textMuted := false }) ∧
      ((s.button.dataset.scene = RESET_PASSWORD ∧ channelOf s ≠ [] ∧
          ¬ (∃ v, payloadIdentifier s = some v ∧ v ≠ [])) →
        (sendClick s).1.elements.find? (fun e => e.id == s.button.dataset.messageTarget) =
          some { el with textContent := JS.ofString "请先填写账号标识。", textDanger := true,
                         textMuted := false })) ∧
    ((s.button.dataset.messageTarget = [] ∨
        s.elements.find? (fun e => e.id == s.button.dataset.messageTarget) = none) →
      (sendClick s).1 = s) ∧
    (sendClick { samplePage with elements := [mkElement "id_email" " ", mkElement "send_msg" ""] }).1
      = { samplePage with elements :=
            [ mkElement "id_email" " ",
              { mkElement "send_msg" "" with
                textContent := [35831, 20808, 22635, 20889, 25509, 25910, 22320, 22336, 12290],
                textDanger := true } ] } := by
  obtain ⟨hpost, hreq, hframe, hm1, hm2, hm3⟩ := sendClick_cases s
  refine ⟨hpost, hreq, hframe, ?_, ?_, by decide⟩
  · intro el htgt hel
    have ht : JS.truthy s.button.dataset.messageTarget = true := (JS.truthy_iff _).mpr htgt
    refine ⟨?_, ?_, ?_⟩
    · intro h
      rw [hm1 h]
      exact setMessage_shows s _ _ true el ht hel
    · intro h
      rw [hm2 h]
      exact setMessage_shows s _ _ true el ht hel
    · intro h
      rw [hm3 h]
      exact setMessage_shows s _ _ true el ht hel
  · intro hno
    have hno' : JS.truthy s.button.dataset.messageTarget = false ∨
        s.elements.find? (fun e => e.id == s.button.dataset.messageTarget) = none := by
      rcases hno with h | h
      · left; rw [h]; rfl
      · right; exact h
    cases hsome : (sendClick s).2 with
    | some r =>
      exact (hreq (by rw [hsome]; rfl)).1
    | none =>
      by_cases h1 : s.button.dataset.scene = [] ∨ channelOf s = []
      · rw [hm1 h1]
        exact setMessage_without_target s _ _ true hno'
      · simp only [not_or] at h1
        by_cases h3 : s.button.dataset.scene = RESET_PASSWORD
        · by_cases h4 : ∃ v, payloadIdentifier s = some v ∧ v ≠ []
          · have := hpost.mpr ⟨h1.1, h1.2, fun h => absurd h3 h, fun _ => h4⟩
            rw [hsome] at this
            cases this
          · rw [hm3 ⟨h3, h1.2, h4⟩]
            exact setMessage_without_target s _ _ true hno'
        · by_cases h5 : resolveDestination s (channelOf s) = []
          · rw [hm2 ⟨h1.1, h1.2, h3, h5⟩]
            exact setMessage_without_target s _ _ true hno'
          · have := hpost.mpr ⟨h1.1, h1.2, fun _ => h5, fun h => absurd h h3⟩
            rw [hsome] at this
            cases this

theorem getItem_setItem (st : Storage) (key value : JSString) :
    getItem (setItem st key value) key = some value := by
  simp [getItem, setItem]

theorem getItem_removeItem (st : Storage) (key : JSString) :
    getItem (removeItem st key) key = none := by
  simp only [getItem, removeItem, Option.map_eq_none', List.find?_eq_none, List.mem_filter]
  rintro e ⟨_, he⟩
  simpa using he

theorem get?_append_length {α : Type} (l : List α) (t : α) :
    (l ++ [t]).get? l.length = some t := by
  induction l with
  | nil => rfl
  | cons a l ih => simp

theorem set_append_length {α : Type} (l : List α) (t u : α) :
    (l ++ [t]).set l.length u = l ++ [u] := by
  induction l with
  | nil => rfl
  | cons a l ih => simp

theorem eraseIdx_append_length {α : Type} (l : List α) (t : α) :
    (l ++ [t]).eraseIdx l.length = l := by
  induction l with
  | nil => rfl
  | cons a l ih => simpa using ih

theorem startCountdown_counting (s : State) (seconds : Int) (key : JSString) (now : Int)
    (hs : seconds ≠ 0) :
    startCountdown s seconds key now = counting s seconds key now seconds := by
  simp [counting, startCountdown, hs]

theorem tick_counting (s : State) (seconds : Int) (key : JSString) (now : Int) (remaining : Int)
    (hr : 1 < remaining) :
    tick (counting s seconds key now remaining) s.timers.length =
      counting s seconds key now (remaining - 1) := by
  have h : ¬ (remaining - 1 ≤ 0) := by omega
  simp [tick, counting, h, get?_append_length, set_append_length]

theorem tick_counting_last (s : State) (seconds : Int) (key : JSString) (now : Int) :
    tick (counting s seconds key now 1) s.timers.length =
      { startCountdown s seconds key now with
        timers := s.timers,
        button := { (startCountdown s seconds key now).button with
                    disabled := false, textContent := defaultTextOf s.button },
        storage := if JS.truthy key then removeItem (startCountdown s seconds key now).storage key
                   else (startCountdown s seconds key now).storage } := by
  simp [tick, counting, get?_append_length, eraseIdx_append_length]

theorem ticks_counting (s : State) (N : Nat) (key : JSString) (now : Int)
    (k : Nat) (hk : k < N) :
    ticks (startCountdown s N key now) s.timers.length k =
      counting s N key now ((N : Int) - k) := by
  induction k with
  | zero =>
    have hN : (N : Int) ≠ 0 := by omega
    simpa [ticks] using startCountdown_counting s N key now hN
  | succ k ih =>
    rw [ticks, ih (by omega), tick_counting _ _ _ _ _ (by omega)]
    congr 1
    push_cast
    ring

/-- C9 as stated fails when another countdown runs on the button (two clicks answered
before the first answer disabled it). On `countingPage` a first countdown of 2 seconds is
live; a second one of 3 seconds is started 400 ms later. After two seconds each timer has
ticked twice: the first has expired and enabled the button, although the second has ticked
only 2 < 3 times and goes on relabelling the enabled button. -/
theorem second_countdown_reenabled_early :
    countingPage.timers.length = 1 ∧
    (startCountdown countingPage 3 (requestKey sampleRequest) 1000400).button.disabled = true ∧
    (tick (tick (tick (tick
        (startCountdown countingPage 3 (requestKey sampleRequest) 1000400) 0) 1) 0) 0).timers =
      [{ remaining := 1, defaultText := JS.ofString "Send code",
         key := requestKey sampleRequest }] ∧
    (tick (tick (tick (tick
        (startCountdown countingPage 3 (requestKey sampleRequest) 1000400) 0) 1) 0)
        0).button.disabled = false ∧
    (tick (tick (tick (tick
        (startCountdown countingPage 3 (requestKey sampleRequest) 1000400) 0) 1) 0)
        0).button.textContent = JS.ofString "重新发送(1s)" := by
  decide

/-- C9 (amended): for a positive integer `N`, the countdown started by
`startCountdown(button, N, key)` on a button with no other running countdown keeps the
button disabled, with the label `重新发送(` `N - k` `s)`, after `k` ticks for every `k < N`;
the `N`-th tick stops the timer, enables the button, puts back the default label and leaves
no entry under `key` in storage. The examples fix the label text and its decimal number. -/
theorem countdown_reenables_after_N_ticks (s : State) (N : Nat) (key : JSString) (now : Int)
    (hN : 0 < N) (ht : s.timers = []) :
    (∀ k, k < N →
      (ticks (startCountdown s N key now) 0 k).button.disabled = true ∧
      (ticks (startCountdown s N key now) 0 k).button.textContent =
        JS.ofString "重新发送(" ++ JS.intToString ((N : Int) - k) ++ JS.ofString "s)" ∧
      (ticks (startCountdown s N key now) 0 k).timers =
        [{ remaining := (N : Int) - k, defaultText := defaultTextOf s.button, key := key }]) ∧
    (ticks (startCountdown s N key now) 0 N).timers = [] ∧
    (ticks (startCountdown s N key now) 0 N).button.disabled = false ∧
    (ticks (startCountdown s N key now) 0 N).button.textContent = defaultTextOf s.button ∧
    (key ≠ [] → getItem (ticks (startCountdown s N key now) 0 N).storage key = none) ∧
    JS.intToString 10 = JS.ofString "10" ∧ JS.intToString 9 = JS.ofString "9" ∧
    JS.intToString 120 = JS.ofString "120" ∧
    (startCountdown samplePage 12 (requestKey sampleRequest) 1000000).button.textContent =
      JS.ofString "重新发送(12s)" ∧
    (ticks (startCountdown samplePage 12 (requestKey sampleRequest) 1000000) 0
      3).button.textContent = JS.ofString "重新发送(9s)" ∧
    (ticks (startCountdown samplePage 12 (requestKey sampleRequest) 1000000) 0
      12).button.textContent = JS.ofString "Send code" := by
  have hN0 : (N : Int) ≠ 0 := by omega
  have hlen : s.timers.length = 0 := by rw [ht]; rfl
  have hcount : ∀ k, k < N →
      ticks (startCountdown s N key now) 0 k = counting s N key now ((N : Int) - k) := by
    intro k hk
    have h := ticks_counting s N key now k hk
    rw [hlen] at h
    exact h
  have hend : (ticks (startCountdown s N key now) 0 N).timers = [] ∧
      (ticks (startCountdown s N key now) 0 N).button.disabled = false ∧
      (ticks (startCountdown s N key now) 0 N).button.textContent = defaultTextOf s.button ∧
      (key ≠ [] → getItem (ticks (startCountdown s N key now) 0 N).storage key = none) := by
    obtain ⟨m, rfl⟩ : ∃ m, N = m + 1 := ⟨N - 1, by omega⟩
    have hone : ((m + 1 : Nat) : Int) - (m : Int) = 1 := by push_cast; omega
    have hlast := tick_counting_last s ((m + 1 : Nat) : Int) key now
    rw [hlen] at hlast
    rw [ticks, hcount m (by omega), hone, hlast]
    refine ⟨ht, rfl, rfl, ?_⟩
    intro hk
    have hkt : JS.truthy key = true := (JS.truthy_iff key).mpr hk
    simp [hkt, getItem_removeItem]
  refine ⟨?_, hend.1, hend.2.1, hend.2.2.1, hend.2.2.2, by decide, by decide, by decide,
    by decide, by decide, by decide⟩
  intro k hk
  rw [hcount k hk]
  simp [counting, startCountdown, hN0, ht, resendLabel]

theorem cooldownKey_truthy (scene channel destination : JSString) :
    JS.truthy (cooldownKey scene channel destination) = true := by
  have h : ∃ c rest, JS.ofString "verificationCooldown:" = c :: rest := ⟨_, _, rfl⟩
  obtain ⟨c, rest, h⟩ := h
  simp [cooldownKey, h, JS.truthy]

theorem requestKey_truthy (r : SendRequest) : JS.truthy (requestKey r) = true := by
  unfold requestKey
  split <;> exact cooldownKey_truthy _ _ _

theorem sendClick_eq_some (s : State) (r : SendRequest) (h : (sendClick s).2 = some r) :
    JS.truthy s.button.dataset.scene = true ∧ JS.truthy (channelOf s) = true ∧
    r = { url := s.button.dataset.sendUrl, scene := s.button.dataset.scene,
          channel := channelOf s, destination := resolveDestination s (channelOf s),
          identifier := payloadIdentifier s } ∧
    (s.button.dataset.scene ≠ RESET_PASSWORD →
      JS.truthy (resolveDestination s (channelOf s)) = true) ∧
    (s.button.dataset.scene = RESET_PASSWORD →
      identifierTruthy (payloadIdentifier s) = true) := by
  have hreset : JS.truthy RESET_PASSWORD = true := by decide
  unfold sendClick at h
  by_cases h1 : JS.truthy s.button.dataset.scene = true
  · by_cases h2 : JS.truthy (channelOf s) = true
    · by_cases h3 : s.button.dataset.scene = RESET_PASSWORD
      · by_cases h4 : identifierTruthy (payloadIdentifier s) = true
        · simp [h2, h3, h4, hreset] at h
          simp [h2, h3, h4, hreset, ← h]
        · simp only [Bool.not_eq_true] at h4
          simp [h2, h3, h4, hreset] at h
      · by_cases h5 : JS.truthy (resolveDestination s (channelOf s)) = true
        · simp [h1, h2, h3, h5] at h
          simp [h1, h2, h3, h5, ← h]
        · simp only [Bool.not_eq_true] at h5
          simp [h1, h2, h3, h5] at h
    · simp only [Bool.not_eq_true] at h2
      simp [h1, h2] at h
  · simp only [Bool.not_eq_true] at h1
    simp [h1] at h

theorem loadCooldown_saved (st : Storage) (key : JSString) (untilMs now : Int)
    (hk : JS.truthy key = true) (hget : getItem st key = some (JS.intToString untilMs)) :
    loadCooldown st key now =
      if (untilMs - now) / 1000 ≤ 0 then (0, removeItem st key)
      else ((untilMs - now) / 1000, st) := by
  simp [loadCooldown, hk, hget, JS.intToString_truthy, JS.parseInt10_intToString]

theorem sendResponse_storage (s : State) (r : SendRequest) (data : SendResponse) (now : Int) :
    (sendResponse s r data now).storage =
      match data.cooldownSeconds with
      | none => s.storage
      | some seconds =>
        if seconds = 0 then s.storage
        else setItem s.storage (requestKey r) (JS.intToString (now + seconds * 1000)) := by
  have hm := (setMessage_frame s s.button.dataset.messageTarget data.message (!data.success)).2.2
  unfold sendResponse
  cases hc : data.cooldownSeconds with
  | none => simp only; split <;> [split; skip] <;> exact hm
  | some seconds =>
    by_cases h0 : seconds = 0
    · simp only [h0, beq_self_eq_true, if_true]; split <;> [split; skip] <;> exact hm
    · have hb : (seconds == 0) = false := by simpa using h0
      simp only [hb, Bool.false_eq_true, if_false, h0]
      have : (startCountdown (setMessage s s.button.dataset.messageTarget data.message
          (!data.success)) seconds (requestKey r) now).storage =
            setItem s.storage (requestKey r) (JS.intToString (now + seconds * 1000)) := by
        simp [startCountdown, hb, saveCooldown, requestKey_truthy, hm]
      split <;> [split; skip] <;> exact this

/-- With the button attributes, inputs and radios of the page on which the send handler
posted `r`, `restoreCooldown` looks the cooldown up under the key the response callback
hands to `startCountdown`. -/
theorem restoreCooldown_of_click (s page : State) (r : SendRequest) (now saveNow : Int)
    (hclick : (sendClick s).2 = some r)
    (hds : page.button.dataset = s.button.dataset) (hel : page.elements = s.elements)
    (hra : page.radios = s.radios) :
    restoreCooldown page now saveNow =
      if (loadCooldown page.storage (requestKey r) now).1 > 0 then
        startCountdown { page with storage := (loadCooldown page.storage (requestKey r) now).2 }
          (loadCooldown page.storage (requestKey r) now).1 (requestKey r) saveNow
      else { page with storage := (loadCooldown page.storage (requestKey r) now).2 } := by
  obtain ⟨h1, h2, hr, h5, h4⟩ := sendClick_eq_some s r hclick
  have hch : channelOf page = channelOf s := by
    simp [channelOf, getChannelFromSource, hds, hra]
  have hin : ∀ id, getInputValueById page id = getInputValueById s id := by
    intro id; simp [getInputValueById, hel]
  have hdest : ∀ c, resolveDestination page c = resolveDestination s c := by
    intro c; simp [resolveDestination, hin, hds]
  unfold restoreCooldown
  simp only [hds, hch, h1, h2, Bool.not_true, Bool.or_self, Bool.false_eq_true, if_false, hin,
    hdest]
  by_cases h3 : s.button.dataset.scene = RESET_PASSWORD
  · have hid := h4 h3
    have hkey : requestKey r = cooldownKey RESET_PASSWORD (channelOf s)
        (getInputValueById s s.button.dataset.identifierInput) := by
      rw [hr]
      unfold payloadIdentifier at hid ⊢
      by_cases hi : JS.truthy s.button.dataset.identifierInput = true
      · simp only [hi, if_true] at hid ⊢
        simp [requestKey, h3, hid]
      · simp only [Bool.not_eq_true] at hi
        simp [hi, identifierTruthy] at hid
    have hi : JS.truthy s.button.dataset.identifierInput = true := by
      unfold payloadIdentifier at hid
      by_cases hi : JS.truthy s.button.dataset.identifierInput = true
      · exact hi
      · simp only [Bool.not_eq_true] at hi
        simp [hi, identifierTruthy] at hid
    have hv : JS.truthy (getInputValueById s s.button.dataset.identifierInput) = true := by
      unfold payloadIdentifier at hid
      simpa [hi, identifierTruthy] using hid
    simp only [h3, beq_self_eq_true, if_true, hi, hv, Bool.not_true, Bool.false_eq_true,
      if_false, ← hkey]
  · have hb : (s.button.dataset.scene == RESET_PASSWORD) = false := by simpa using h3
    have hkey : requestKey r = cooldownKey s.button.dataset.scene (channelOf s)
        (resolveDestination s (channelOf s)) := by
      rw [hr]
      simp [requestKey, hb]
    simp only [hb, Bool.false_eq_true, if_false, h5 h3, Bool.not_true, ← hkey]

/-- C8 as stated fails: a cooldown of 60 seconds reloaded 59.5 seconds later (`D < N`) is not
resumed. The remaining time rounds down to 0, so `restoreCooldown` starts no timer, leaves
the button enabled and removes the stored deadline. -/
theorem cooldown_not_resumed_in_last_second :
    (sendClick samplePage).2 = some sampleRequest ∧
    getItem reloadedPage.storage (requestKey sampleRequest) = some (JS.intToString 1060000) ∧
    (59500 : Int) < 60 * 1000 ∧ ((60 : Int) * 1000 - 59500) / 1000 = 0 ∧
    (restoreCooldown reloadedPage (1000000 + 59500) (1000000 + 59501)).timers = [] ∧
    (restoreCooldown reloadedPage (1000000 + 59500) (1000000 + 59501)).button.disabled = false ∧
    getItem (restoreCooldown reloadedPage (1000000 + 59500) (1000000 + 59501)).storage
      (requestKey sampleRequest) = none := by
  decide

/-- C8 (amended): a cooldown of `N` seconds started by the send handler at clock reading
`T0` is stored under the key that `restoreCooldown` looks up for the same button and input
values. Run `d` milliseconds later with at least one whole second left
(`d + 1000 ≤ N * 1000`), `restoreCooldown` starts a countdown of exactly
`floor((N * 1000 - d) / 1000)` seconds under that key, whatever the second clock reading
`T2` of the handler; run in the last second or later, it starts no countdown, leaves the
button as it is and removes the stored deadline. -/
theorem restoreCooldown_resumes (s page : State) (r : SendRequest) (data : SendResponse)
    (N d : Nat) (T0 T2 : Int)
    (hclick : (sendClick s).2 = some r)
    (hdata : data.cooldownSeconds = some (N : Int)) (hN : 0 < N)
    (hds : page.button.dataset = s.button.dataset) (hel : page.elements = s.elements)
    (hra : page.radios = s.radios)
    (hst : page.storage = (sendResponse s r data T0).storage) :
    getItem page.storage (requestKey r) = some (JS.intToString (T0 + (N : Int) * 1000)) ∧
    (d + 1000 ≤ N * 1000 →
      restoreCooldown page (T0 + d) T2 =
        startCountdown page (((N : Int) * 1000 - d) / 1000) (requestKey r) T2 ∧
      0 < ((N : Int) * 1000 - d) / 1000 ∧
      (restoreCooldown page (T0 + d) T2).button.disabled = true ∧
      (restoreCooldown page (T0 + d) T2).button.textContent =
        resendLabel (((N : Int) * 1000 - d) / 1000) ∧
      (restoreCooldown page (T0 + d) T2).timers =
        page.timers ++ [{ remaining := ((N : Int) * 1000 - d) / 1000,
                          defaultText := defaultTextOf page.button, key := requestKey r }]) ∧
    (N * 1000 < d + 1000 →
      (restoreCooldown page (T0 + d) T2).timers = page.timers ∧
      (restoreCooldown page (T0 + d) T2).button = page.button ∧
      getItem (restoreCooldown page (T0 + d) T2).storage (requestKey r) = none) := by
  have hN0 : (N : Int) ≠ 0 := by omega
  have hstore : page.storage =
      setItem s.storage (requestKey r) (JS.intToString (T0 + (N : Int) * 1000)) := by
    rw [hst, sendResponse_storage, hdata]
    simp [hN0]
  have hget : getItem page.storage (requestKey r) =
      some (JS.intToString (T0 + (N : Int) * 1000)) := by
    rw [hstore, getItem_setItem]
  have hload := loadCooldown_saved page.storage (requestKey r) (T0 + (N : Int) * 1000) (T0 + d)
    (requestKey_truthy r) hget
  have hdiff : T0 + (N : Int) * 1000 - (T0 + d) = (N : Int) * 1000 - d := by ring
  rw [hdiff] at hload
  have hrestore := restoreCooldown_of_click s page r (T0 + d) T2 hclick hds hel hra
  refine ⟨hget, ?_, ?_⟩
  · intro hd
    have hpos : 0 < ((N : Int) * 1000 - d) / 1000 := by omega
    have hnot : ¬ (((N : Int) * 1000 - d) / 1000 ≤ 0) := by omega
    rw [if_neg hnot] at hload
    rw [hload] at hrestore
    simp only [gt_iff_lt, hpos, if_true] at hrestore
    have hne : ¬ (((N : Int) * 1000 - d) / 1000 = 0) := by omega
    refine ⟨hrestore, hpos, ?_, ?_, ?_⟩ <;> rw [hrestore] <;> simp [startCountdown, hne]
  · intro hd
    have hle : ((N : Int) * 1000 - d) / 1000 ≤ 0 := by omega
    rw [if_pos hle] at hload
    rw [hload] at hrestore
    simp only [gt_iff_lt, lt_self_iff_false, if_false] at hrestore
    rw [hrestore]
    exact ⟨rfl, rfl, getItem_removeItem _ _⟩

/-- Witness for C8: the sample page, reloaded 20.5 seconds into a cooldown of 60 seconds,
resumes with 39 seconds. -/
theorem restoreCooldown_resumes_witness :
    ((sendClick samplePage).2 = some sampleRequest ∧ 20500 + 1000 ≤ 60 * 1000) ∧
    (restoreCooldown reloadedPage (1000000 + (20500 : Nat)) 1020501).timers =
      reloadedPage.timers ++
        [{ remaining := (((60 : Nat) : Int) * 1000 - (20500 : Nat)) / 1000,
           defaultText := defaultTextOf reloadedPage.button, key := requestKey sampleRequest }] :=
  ⟨by decide,
    ((restoreCooldown_resumes samplePage reloadedPage sampleRequest sampleResponse 60 20500
      1000000 1020501 (by decide) rfl (by decide) rfl rfl rfl rfl).2.1 (by decide)).2.2.2.2⟩

/-- Witness for C9: a countdown of 3 seconds on the sample page, which has no running
countdown, has re-enabled the button after its third tick. -/
theorem countdown_reenables_after_N_ticks_witness :
    (0 < 3 ∧ samplePage.timers = []) ∧
    (ticks (startCountdown samplePage ((3 : Nat) : Int) (requestKey sampleRequest) 1000000)
      0 3).button.disabled = false :=
  ⟨by decide,
    (countdown_reenables_after_N_ticks samplePage 3 (requestKey sampleRequest) 1000000
      (by decide) rfl).2.2.1⟩

/-- Witness for C10: on the sample page the click posts and leaves the page untouched; on the
same page with a blank address the click posts nothing and the message target shows the
missing-destination text as an error. -/
theorem sendClick_posts_iff_witness :
    ((sendClick samplePage).2.isSome = true ∧
      (sendClick samplePage).1 = samplePage ∧
      (sendClick samplePage).2 = some
        { url := samplePage.button.dataset.sendUrl, scene := samplePage.button.dataset.scene,
          channel := channelOf samplePage,
          destination := resolveDestination samplePage (channelOf samplePage),
          identifier := payloadIdentifier samplePage }) ∧
    ((blankAddressPage.button.dataset.messageTarget ≠ [] ∧
      blankAddressPage.elements.find?
          (fun e => e.id == blankAddressPage.button.dataset.messageTarget) =
        some (mkElement "send_msg" "") ∧
      (blankAddressPage.button.dataset.scene ≠ [] ∧ channelOf blankAddressPage ≠ [] ∧
        blankAddressPage.button.dataset.scene ≠ RESET_PASSWORD ∧
        resolveDestination blankAddressPage (channelOf blankAddressPage) = [])) ∧
      (sendClick blankAddressPage).1.elements.find?
          (fun e => e.id == blankAddressPage.button.dataset.messageTarget) =
        some { mkElement "send_msg" "" with
               textContent := JS.ofString "请先填写接收地址。", textDanger := true,
               textMuted := false }) :=
  ⟨⟨by decide, (sendClick_posts_iff samplePage).2.1 (by decide)⟩,
    ⟨by decide,
      ((sendClick_posts_iff blankAddressPage).2.2.2.1 (mkElement "send_msg" "") (by decide)
        (by decide)).2.1 (by decide)⟩⟩

end Verification

namespace ShopBinding

theorem find?_map_updateFirst {α β : Type} (p q : α → Bool) (w : α → α) (g : α → β)
    (hq : ∀ c, q (w c) = q c) (hg : ∀ c, g (w c) = g c) (l : List α) :
    ((JS.updateFirst p w l).find? q).map g = (l.find? q).map g := by
  induction l with
  | nil => rfl
  | cons a t ih =>
    by_cases hp : p a = true
    · by_cases hqa : q a = true
      · have hqw : q (w a) = true := by rw [hq]; exact hqa
        simp [JS.updateFirst, hp, List.find?_cons, hqa, hqw, hg]
      · simp only [Bool.not_eq_true] at hqa
        have hqw : q (w a) = false := by rw [hq]; exact hqa
        simp [JS.updateFirst, hp, List.find?_cons, hqa, hqw]
    · simp only [Bool.not_eq_true] at hp
      by_cases hqa : q a = true
      · simp [JS.updateFirst, hp, List.find?_cons, hqa]
      · simp only [Bool.not_eq_true] at hqa
        simp [JS.updateFirst, hp, List.find?_cons, hqa, ih]

theorem find?_updateFirst_of_disjoint {α : Type} (p q : α → Bool) (w : α → α)
    (hq : ∀ c, q (w c) = q c) (hpq : ∀ c, p c = true → q c = false) (l : List α) :
    (JS.updateFirst p w l).find? q = l.find? q := by
  induction l with
  | nil => rfl
  | cons a t ih =>
    by_cases hp : p a = true
    · have hqa : q a = false := hpq a hp
      have hqw : q (w a) = false := by rw [hq]; exact hqa
      simp [JS.updateFirst, hp, List.find?_cons, hqa, hqw]
    · simp only [Bool.not_eq_true] at hp
      by_cases hqa : q a = true
      · simp [JS.updateFirst, hp, List.find?_cons, hqa]
      · simp only [Bool.not_eq_true] at hqa
        simp [JS.updateFirst, hp, List.find?_cons, hqa, ih]

theorem identityNeedsAuthorization_eq (s : State) :
    identityNeedsAuthorization s =
      match (checkedIdentity s).map (fun c => c.value) with
      | none => false
      | some v => v != OWNER := by
  unfold identityNeedsAuthorization
  cases checkedIdentity s <;> rfl

theorem identityNeedsAuthorization_setFieldState (s : State) (field : Field) (isValid : Bool) :
    identityNeedsAuthorization (setFieldState s field isValid) = identityNeedsAuthorization s := by
  rw [identityNeedsAuthorization_eq, identityNeedsAuthorization_eq]
  unfold setFieldState
  cases queryById s field.elId with
  | none => rfl
  | some el =>
    simp only [checkedIdentity]
    rw [find?_map_updateFirst (fun c : Control => c.id == field.elId)
      (fun c : Control => c.name == JS.ofString "identity_type" && c.checked)
      (fun c : Control => { c with invalid := !isValid }) (fun c : Control => c.value)
      (fun _ => rfl) (fun _ => rfl)]

theorem fieldValue_eq (s : State) (field : Field) :
    fieldValue s field = ((queryById s field.elId).map (fun c => c.value)).getD [] := by
  unfold fieldValue
  cases queryById s field.elId <;> rfl

theorem fieldValue_setFieldState (s : State) (field other : Field) (isValid : Bool) :
    fieldValue (setFieldState s field isValid) other = fieldValue s other := by
  rw [fieldValue_eq, fieldValue_eq]
  unfold setFieldState
  cases queryById s field.elId with
  | none => rfl
  | some el =>
    simp only [queryById]
    rw [find?_map_updateFirst (fun c : Control => c.id == field.elId)
      (fun c : Control => c.id == other.elId)
      (fun c : Control => { c with invalid := !isValid }) (fun c : Control => c.value)
      (fun _ => rfl) (fun _ => rfl)]

theorem queryById_setFieldState_same (s : State) (field : Field) (isValid : Bool) :
    queryById (setFieldState s field isValid) field.elId =
      (queryById s field.elId).map (fun c => { c with invalid := !isValid }) := by
  unfold setFieldState
  cases h : queryById s field.elId with
  | none => simp [h]
  | some el =>
    simp only [queryById] at h ⊢
    rw [find?_updateFirst (fun c : Control => c.id == field.elId)
      (fun c : Control => { c with invalid := !isValid }) (fun _ => rfl), h]

theorem queryById_setFieldState_other (s : State) (field : Field) (isValid : Bool)
    (id : JSString) (hne : field.elId ≠ id) :
    queryById (setFieldState s field isValid) id = queryById s id := by
  unfold setFieldState
  cases queryById s field.elId with
  | none => rfl
  | some el =>
    simp only [queryById]
    apply find?_updateFirst_of_disjoint (fun c : Control => c.id == field.elId)
      (fun c : Control => c.id == id) (fun c : Control => { c with invalid := !isValid })
      (fun _ => rfl)
    intro c hc
    simp only [beq_iff_eq] at hc
    simp only [beq_eq_false_iff_ne, ne_eq, hc]
    exact hne

/-- The pass of `validateForm` over the fields, started in a state `s` that agrees with `s0`
on the checked identity and on every field value: the errors collected are the messages of
the fields failing on `s0`, in order; an element that belongs to no field is untouched; the
element of a field carries `is-invalid` exactly when the field fails. -/
theorem validateFields_spec (fields : List Field)
    (hok : ∀ f ∈ fields, ∀ (s s' : State) (v : JSString),
      identityNeedsAuthorization s' = identityNeedsAuthorization s →
        f.validate s' v = f.validate s v)
    (s0 s : State) (errors : List JSString)
    (hid : identityNeedsAuthorization s = identityNeedsAuthorization s0)
    (hval : ∀ g, fieldValue s g = fieldValue s0 g) :
    (validateFields fields s errors).2 =
        errors ++ (fields.filter (fieldFails s0)).map (fun f => f.message) ∧
    (∀ id, id ∉ fields.map (fun f => f.elId) →
        queryById (validateFields fields s errors).1 id = queryById s id) ∧
    ((fields.map (fun f => f.elId)).Nodup → ∀ f ∈ fields,
        queryById (validateFields fields s errors).1 f.elId =
          (queryById s f.elId).map (fun c => { c with invalid := fieldFails s0 f })) := by
  induction fields generalizing s errors with
  | nil => simp [validateFields]
  | cons g rest ih =>
    have hokrest : ∀ f ∈ rest, ∀ (s s' : State) (v : JSString),
        identityNeedsAuthorization s' = identityNeedsAuthorization s →
          f.validate s' v = f.validate s v :=
      fun f hf => hok f (List.mem_cons_of_mem g hf)
    have hvalid : g.validate s (fieldValue s g) = g.validate s0 (fieldValue s0 g) := by
      rw [hval g]
      exact hok g (List.mem_cons_self g rest) s0 s _ hid
    have hfail : fieldFails s0 g = !g.validate s (fieldValue s g) := by
      rw [hvalid]; rfl
    have hid1 : identityNeedsAuthorization (setFieldState s g (g.validate s (fieldValue s g))) =
        identityNeedsAuthorization s0 := by
      rw [identityNeedsAuthorization_setFieldState, hid]
    have hval1 : ∀ h, fieldValue (setFieldState s g (g.validate s (fieldValue s g))) h =
        fieldValue s0 h := by
      intro h
      rw [fieldValue_setFieldState, hval h]
    obtain ⟨ihe, ihf, ihm⟩ := ih hokrest
      (setFieldState s g (g.validate s (fieldValue s g)))
      (if g.validate s (fieldValue s g) then errors else errors ++ [g.message]) hid1 hval1
    simp only [validateFields]
    refine ⟨?_, ?_, ?_⟩
    · rw [ihe]
      cases hv : g.validate s (fieldValue s g) with
      | true =>
        have : fieldFails s0 g = false := by rw [hfail, hv]; rfl
        simp [List.filter_cons, this]
      | false =>
        have : fieldFails s0 g = true := by rw [hfail, hv]; rfl
        simp [List.filter_cons, this]
    · intro id hnot
      simp only [List.map_cons, List.mem_cons, not_or] at hnot
      rw [ihf id hnot.2]
      exact queryById_setFieldState_other s g _ id (fun h => hnot.1 h.symm)
    · intro hnd f hf
      simp only [List.map_cons, List.nodup_cons] at hnd
      rcases List.mem_cons.mp hf with rfl | hfr
      · rw [ihf _ hnd.1, queryById_setFieldState_same, hfail]
      · rw [ihm hnd.2 f hfr]
        have hne : g.elId ≠ f.elId := by
          intro h
          apply hnd.1
          rw [h]
          exact List.mem_map_of_mem (fun f => f.elId) hfr
        rw [queryById_setFieldState_other s g _ f.elId hne]

theorem fieldMap_stable : ∀ f ∈ fieldMap, ∀ (s s' : State) (v : JSString),
    identityNeedsAuthorization s' = identityNeedsAuthorization s →
      f.validate s' v = f.validate s v := by
  intro f hf s s' v h
  simp only [fieldMap, List.mem_cons, List.mem_singleton, List.not_mem_nil, or_false] at hf
  rcases hf with rfl | rfl | rfl | rfl | rfl | rfl <;> simp [validateAuthorizationNote, h]

theorem fieldMap_ids_nodup : (fieldMap.map (fun f => f.elId)).Nodup := by
  decide

theorem validateForm_components (s : State) :
    (validateForm s).2 = (validateFields fieldMap s []).2.isEmpty ∧
    (validateForm s).1.controls = (validateFields fieldMap s []).1.controls ∧
    (validateForm s).1.summaryItems = (validateFields fieldMap s []).2 ∧
    (validateForm s).1.summaryVisible = !(validateFields fieldMap s []).2.isEmpty := by
  unfold validateForm
  generalize validateFields fieldMap s [] = r
  obtain ⟨s1, errors⟩ := r
  simp only
  refine ⟨?_, ?_, ?_, ?_⟩
  all_goals first
    | trivial
    | rfl
    | (split <;> first | rfl | (split <;> rfl))

theorem queryById_congr (a b : State) (h : a.controls = b.controls) (id : JSString) :
    queryById a id = queryById b id := by
  unfold queryById
  rw [h]

/-- C11: `validateForm` returns true exactly when all six field validators accept the value
of their field; when it returns false a non-draft submit is prevented; after it the element
of each field carries `is-invalid` exactly when the field fails; and the error summary lists
the messages of exactly the failing fields, in field order, and is shown exactly when there
is one. -/
theorem validateForm_blocks_iff (s : State) :
    ((validateForm s).2 = true ↔ ∀ f ∈ fieldMap, f.validate s (fieldValue s f) = true) ∧
    (s.isDraftSubmit = false → (validateForm s).2 = false →
      (submitHandler s).2 = true ∧ (submitHandler s).1 = (validateForm s).1) ∧
    (∀ f ∈ fieldMap, queryById (validateForm s).1 f.elId =
        (queryById s f.elId).map (fun c => { c with invalid := fieldFails s f })) ∧
    (validateForm s).1.summaryItems = (fieldMap.filter (fieldFails s)).map (fun f => f.message) ∧
    (validateForm s).1.summaryVisible = !(validateForm s).2 := by
  obtain ⟨hret, hctl, hsum, hvis⟩ := validateForm_components s
  obtain ⟨herr, _, hmark⟩ :=
    validateFields_spec fieldMap fieldMap_stable s s [] rfl (fun _ => rfl)
  simp only [List.nil_append] at herr
  refine ⟨?_, ?_, ?_, ?_, ?_⟩
  · rw [hret, herr]
    simp [List.filter_eq_nil_iff, fieldFails]
  · intro hd hfail
    unfold submitHandler
    simp only [hd, Bool.not_false, if_true]
    generalize validateForm s = r at hfail
    obtain ⟨s1, ok⟩ := r
    simp only at hfail
    subst hfail
    simp
  · intro f hf
    rw [queryById_congr _ _ hctl]
    exact hmark fieldMap_ids_nodup f hf
  · rw [hsum, herr]
  · rw [hvis, hret]

/-- Witness for C11: with the shop name `A` the form fails validation and its non-draft
submit is prevented. -/
theorem validateForm_blocks_iff_witness :
    ((formWith "A").isDraftSubmit = false ∧ (validateForm (formWith "A")).2 = false) ∧
    ((submitHandler (formWith "A")).2 = true ∧
      (submitHandler (formWith "A")).1 = (validateForm (formWith "A")).1) :=
  ⟨by decide, (validateForm_blocks_iff (formWith "A")).2.1 (by decide) (by decide)⟩

theorem map_updateFirst {α β : Type} (p : α → Bool) (w : α → α) (g : α → β)
    (hg : ∀ c, g (w c) = g c) (l : List α) : (JS.updateFirst p w l).map g = l.map g := by
  induction l with
  | nil => rfl
  | cons a t ih =>
    by_cases hp : p a = true
    · simp [JS.updateFirst, hp, hg]
    · simp only [Bool.not_eq_true] at hp
      simp [JS.updateFirst, hp, ih]

theorem saveDraftAction_eq (s : State) (hr : s.hasRequestSubmit = true)
    (hf : requestSubmitFires (saveDraftClick s) = true) :
    saveDraftAction s = (submitProceed (saveDraftClick s), SubmitResult.submitted) := by
  have hr1 : (saveDraftClick s).hasRequestSubmit = true := by
    simpa [saveDraftClick] using hr
  unfold saveDraftAction
  simp only [hr1, hf, if_true]
  exact dispatchSubmit_draft_submit _ (saveDraftClick_draft s).2

theorem submitProceed_frame (s : State) :
    (submitProceed s).summaryItems = s.summaryItems ∧
    (submitProceed s).summaryVisible = s.summaryVisible ∧
    (submitProceed s).focus = s.focus ∧
    (submitProceed s).controls =
      JS.updateFirst isIntentInput
        (fun c => if !JS.truthy c.value then
          { c with value := if s.isDraftSubmit then JS.ofString "draft" else JS.ofString "submit" }
          else c)
        s.controls := by
  unfold submitProceed
  cases h : s.isDraftSubmit <;> simp [h]

/-- When `form.requestSubmit()` dispatches the `submit` event, the save-draft action is not
prevented by the submit handler and goes straight to the part of the handler behind the
validation gate: the form is submitted, no field mark, summary or focus is changed, and the
intent input, when the form has one, holds `draft` afterwards. -/
theorem saveDraft_submits_when_dispatched (s : State) (hr : s.hasRequestSubmit = true)
    (hf : requestSubmitFires (saveDraftClick s) = true) :
    saveDraftAction s = (submitProceed (saveDraftClick s), SubmitResult.submitted) ∧
    (saveDraftAction s).1.summaryItems = s.summaryItems ∧
    (saveDraftAction s).1.summaryVisible = s.summaryVisible ∧
    (saveDraftAction s).1.focus = s.focus ∧
    (saveDraftAction s).1.controls.map (fun c => c.invalid) =
      s.controls.map (fun c => c.invalid) ∧
    (intentInput (saveDraftAction s).1).isSome = (intentInput s).isSome ∧
    (∀ c, intentInput (saveDraftAction s).1 = some c → c.value = JS.ofString "draft") := by
  have heq := saveDraftAction_eq s hr hf
  obtain ⟨h1, h2, h3, h4⟩ := submitProceed_frame (saveDraftClick s)
  have hdraft : JS.truthy (JS.ofString "draft") = true := by decide
  have hintent : intentInput (saveDraftAction s).1 =
      (intentInput s).map (fun c => { c with value := JS.ofString "draft" }) := by
    rw [heq]
    simp only [intentInput, h4]
    rw [find?_updateFirst isIntentInput
      (fun c : Control => if !JS.truthy c.value then
        { c with value := if (saveDraftClick s).isDraftSubmit then JS.ofString "draft"
                          else JS.ofString "submit" }
        else c)
      (by intro c; by_cases hc : (!JS.truthy c.value) = true <;> simp [hc, isIntentInput])]
    simp only [saveDraftClick]
    rw [find?_updateFirst isIntentInput
      (fun c : Control => { c with value := JS.ofString "draft" }) (fun _ => rfl)]
    cases s.controls.find? isIntentInput with
    | none => rfl
    | some c => simp [hdraft]
  refine ⟨heq, ?_, ?_, ?_, ?_, ?_, ?_⟩
  · rw [heq]; exact h1
  · rw [heq]; exact h2
  · rw [heq]; exact h3
  · rw [heq]
    simp only [h4]
    rw [map_updateFirst isIntentInput
      (fun c : Control => if !JS.truthy c.value then
        { c with value := if (saveDraftClick s).isDraftSubmit then JS.ofString "draft"
                          else JS.ofString "submit" }
        else c)
      (fun c : Control => c.invalid)
      (by intro c; by_cases hc : (!JS.truthy c.value) = true <;> simp [hc])]
    simp only [saveDraftClick]
    rw [map_updateFirst isIntentInput
      (fun c : Control => { c with value := JS.ofString "draft" })
      (fun c : Control => c.invalid) (fun _ => rfl)]
  · rw [hintent]
    cases intentInput s <;> rfl
  · intro c hc
    rw [hintent] at hc
    cases hi : intentInput s with
    | none => simp [hi] at hc
    | some c0 =>
      simp only [hi, Option.map_some', Option.some.injEq] at hc
      rw [← hc]

/-- The save-draft action never ends with a submit event that the handler prevented. -/
theorem saveDraftAction_not_prevented (s : State) :
    (saveDraftAction s).2 ≠ SubmitResult.prevented := by
  unfold saveDraftAction
  simp only
  split
  · split
    · rw [dispatchSubmit_draft_submit _ (saveDraftClick_draft s).2]
      simp
    · simp
  · simp

/-- Whatever the last statement of the save-draft click brings about, `validateForm` has
not run (no field mark, summary or focus is changed) and the intent input, when the form
has one, holds `draft`. -/
theorem saveDraftAction_skips_validateForm (s : State) :
    (saveDraftAction s).1.summaryItems = s.summaryItems ∧
    (saveDraftAction s).1.summaryVisible = s.summaryVisible ∧
    (saveDraftAction s).1.focus = s.focus ∧
    (saveDraftAction s).1.controls.map (fun c => c.invalid) =
      s.controls.map (fun c => c.invalid) ∧
    (∀ c, intentInput (saveDraftAction s).1 = some c → c.value = JS.ofString "draft") := by
  by_cases hr : s.hasRequestSubmit = true
  · by_cases hf : requestSubmitFires (saveDraftClick s) = true
    · obtain ⟨_, h1, h2, h3, h4, _, h6⟩ := saveDraft_submits_when_dispatched s hr hf
      exact ⟨h1, h2, h3, h4, h6⟩
    · have hr1 : (saveDraftClick s).hasRequestSubmit = true := by
        simpa [saveDraftClick] using hr
      have heq : saveDraftAction s = (saveDraftClick s, SubmitResult.notDispatched) := by
        unfold saveDraftAction
        simp only [hr1, hf, if_true]
        rfl
      rw [heq]
      refine ⟨rfl, rfl, rfl, ?_, ?_⟩
      · simp only [saveDraftClick]
        rw [map_updateFirst isIntentInput
          (fun c : Control => { c with value := JS.ofString "draft" })
          (fun c : Control => c.invalid) (fun _ => rfl)]
      · intro c hc
        simp only [intentInput, saveDraftClick] at hc
        rw [find?_updateFirst isIntentInput
          (fun c : Control => { c with value := JS.ofString "draft" }) (fun _ => rfl)] at hc
        cases hi : s.controls.find? isIntentInput with
        | none => simp [hi] at hc
        | some c0 =>
          simp only [hi, Option.map_some', Option.some.injEq] at hc
          rw [← hc]
  · have hr1 : (saveDraftClick s).hasRequestSubmit = false := by
      simpa [saveDraftClick] using hr
    have heq : saveDraftAction s = (saveDraftClick s, SubmitResult.submittedWithoutEvent) := by
      unfold saveDraftAction
      simp [hr1]
    rw [heq]
    refine ⟨rfl, rfl, rfl, ?_, ?_⟩
    · simp only [saveDraftClick]
      rw [map_updateFirst isIntentInput
        (fun c : Control => { c with value := JS.ofString "draft" })
        (fun c : Control => c.invalid) (fun _ => rfl)]
    · intro c hc
      simp only [intentInput, saveDraftClick] at hc
      rw [find?_updateFirst isIntentInput
        (fun c : Control => { c with value := JS.ofString "draft" }) (fun _ => rfl)] at hc
      cases hi : s.controls.find? isIntentInput with
      | none => simp [hi] at hc
      | some c0 =>
        simp only [hi, Option.map_some', Option.some.injEq] at hc
        rw [← hc]

/-- C12 fails on the code for the blank form as the script leaves it after load, a form on
which every validator fails: `syncAuthorizationState` has made the empty note `required`, so
`form.requestSubmit()` fails the browser's constraint validation and dispatches no `submit`
event, and the save-draft click submits nothing. The sibling branch `form.submit()`, and
`requestSubmit` on a `novalidate` form, do submit the same form. The click also leaves
`isDraftSubmit` true: once every field is filled in, a click on the real submit button is
handled as a draft, `validateForm` is skipped although two validators fail, and the form
goes out with the intent `draft`. -/
theorem saveDraft_not_submitted_when_note_required :
    (fieldMap.filter (fieldFails loadedBlankForm)).length = 6 ∧
    (validateForm loadedBlankForm).2 = false ∧
    (authorizationInput loadedBlankForm).map (fun c => (c.required, c.value)) =
      some (true, []) ∧
    loadedBlankForm.hasRequestSubmit = true ∧ loadedBlankForm.noValidate = false ∧
    requestSubmitFires (saveDraftClick loadedBlankForm) = false ∧
    (saveDraftAction loadedBlankForm).2 = SubmitResult.notDispatched ∧
    (saveDraftAction loadedBlankForm).1 = saveDraftClick loadedBlankForm ∧
    (saveDraftAction loadedBlankForm).1.isDraftSubmit = true ∧
    (saveDraftAction loadedBlankForm).1.saveDraftBtn = loadedBlankForm.saveDraftBtn ∧
    (saveDraftAction { loadedBlankForm with hasRequestSubmit := false }).2 =
      SubmitResult.submittedWithoutEvent ∧
    (saveDraftAction { loadedBlankForm with noValidate := true }).2 =
      SubmitResult.submitted ∧
    (saveDraftAction (typeValue loadedBlankForm "id_authorization_note" " ")).2 =
      SubmitResult.submitted ∧
    (fieldMap.filter (fieldFails refilledAfterSaveDraft)).length = 2 ∧
    (validateForm refilledAfterSaveDraft).2 = false ∧
    refilledAfterSaveDraft.controls.all (fun c => !c.value.isEmpty || c.type == JS.ofString "hidden"
      || c.type == JS.ofString "radio") = true ∧
    (submitClick refilledAfterSaveDraft).2 = SubmitResult.submitted ∧
    (intentInput (submitClick refilledAfterSaveDraft).1).map (fun c => c.value) =
      some (JS.ofString "draft") ∧
    (submitClick { refilledAfterSaveDraft with isDraftSubmit := false }).2 =
      SubmitResult.prevented := by
  decide

end ShopBinding

namespace Theme

theorem applyTheme_fields (s : State) (theme : JSString) :
    (applyTheme s theme).dataTheme = some theme ∧ (applyTheme s theme).stored = s.stored ∧
    (applyTheme s theme).hasMatchMedia = s.hasMatchMedia ∧
    (applyTheme s theme).osDark = s.osDark := by
  unfold applyTheme setToggleState
  simp only
  split <;> exact ⟨rfl, rfl, rfl, rfl⟩

theorem resolveTheme_congr (a b : State) (h1 : a.stored = b.stored)
    (h2 : a.hasMatchMedia = b.hasMatchMedia) (h3 : a.osDark = b.osDark) :
    resolveTheme a = resolveTheme b := by
  simp [resolveTheme, systemTheme, h1, h2, h3]

theorem resolveTheme_light_or_dark (s : State) :
    resolveTheme s = light ∨ resolveTheme s = dark := by
  unfold resolveTheme
  have hsys : systemTheme s = light ∨ systemTheme s = dark := by
    unfold systemTheme
    split
    · exact Or.inr rfl
    · exact Or.inl rfl
  cases s.stored with
  | none => exact hsys
  | some stored =>
    simp only
    by_cases h : (stored == light || stored == dark) = true
    · simp only [h, if_true]
      simp only [Bool.or_eq_true, beq_iff_eq] at h
      exact h
    · simp only [h, Bool.false_eq_true, if_false]
      exact hsys

theorem opposite_light_or_dark (theme : JSString) :
    opposite theme = light ∨ opposite theme = dark := by
  unfold opposite
  split
  · exact Or.inl rfl
  · exact Or.inr rfl

theorem resolveTheme_stored (s : State) (theme : JSString)
    (h : theme = light ∨ theme = dark) (hs : s.stored = some theme) :
    resolveTheme s = theme := by
  unfold resolveTheme
  rw [hs]
  rcases h with rfl | rfl <;> simp

theorem load_applied (s : State) : applied (load s) := by
  obtain ⟨h1, h2, h3, h4⟩ := applyTheme_fields s (resolveTheme s)
  unfold applied load
  rw [h1, resolveTheme_congr _ s h2 h3 h4]

theorem toggleClick_applied (s : State) :
    applied (toggleClick s) ∧ storedUsable (toggleClick s) := by
  have hopp := opposite_light_or_dark (resolveTheme s)
  obtain ⟨h1, h2, h3, h4⟩ :=
    applyTheme_fields { s with stored := some (opposite (resolveTheme s)) }
      (opposite (resolveTheme s))
  constructor
  · unfold applied toggleClick
    simp only
    rw [h1, resolveTheme_stored _ _ hopp h2]
  · unfold storedUsable toggleClick
    simp only
    rw [h2]
    rcases hopp with h | h
    · right; right; left; simp only [h]
    · right; right; right; simp only [h]

theorem load_storedUsable (s : State) (h : storedUsable s) : storedUsable (load s) := by
  unfold storedUsable load at *
  rw [(applyTheme_fields s (resolveTheme s)).2.1]
  exact h

theorem light_dark_facts :
    (light == dark) = false ∧ (dark == light) = false ∧
    (([] : JSString) == light) = false ∧ (([] : JSString) == dark) = false ∧
    JS.truthy light = true ∧ JS.truthy dark = true ∧ JS.truthy ([] : JSString) = false := by
  decide

theorem osChange_applied (s : State) (osDark : Bool) (ha : applied s) (hu : storedUsable s) :
    applied (osChange s osDark) ∧ storedUsable (osChange s osDark) := by
  obtain ⟨h1, h2, h3, h4, h5, h6, h7⟩ := light_dark_facts
  obtain ⟨stored, hasMatchMedia, os, dataTheme, ariaLabel, hasIcon, icon⟩ := s
  unfold applied storedUsable at *
  simp only at ha hu
  rcases hu with rfl | rfl | rfl | rfl <;> cases hasMatchMedia <;> cases hasIcon <;>
    simp [resolveTheme, systemTheme, h1, h2, h3, h4] at ha <;>
    simp [osChange, applyTheme, setToggleState, resolveTheme, systemTheme, h1, h2, h3, h4, h5,
      h6, h7, ha]

theorem step_applied (s : State) (e : Event) (ha : applied s) (hu : storedUsable s) :
    applied (step s e) ∧ storedUsable (step s e) := by
  cases e with
  | click => exact toggleClick_applied s
  | osChange osDark => exact osChange_applied s osDark ha hu

theorem foldl_step_applied (events : List Event) (s : State) (ha : applied s)
    (hu : storedUsable s) :
    applied (events.foldl step s) ∧ storedUsable (events.foldl step s) := by
  induction events generalizing s with
  | nil => exact ⟨ha, hu⟩
  | cons e rest ih =>
    obtain ⟨ha1, hu1⟩ := step_applied s e ha hu
    exact ih (step s e) ha1 hu1

/-- When the storage holds nothing, the empty string, `light` or `dark` under `theme`, the
applied theme is the effective theme after page load and after every click and OS change. -/
theorem applied_of_storedUsable (s : State) (events : List Event) (hu : storedUsable s) :
    applied (run s events) :=
  (foldl_step_applied events (load s) (load_applied s) (load_storedUsable s hu)).1

/-- C13 fails on the code when the storage holds another value, here `auto`: after page load
the light theme is applied, as resolved from the OS; when the OS turns dark the `change`
handler finds a non-empty stored value and does not re-apply, so the page keeps `light`
while `resolveTheme` yields `dark`. -/
theorem osChange_leaves_stale_theme :
    applied (load autoStored) ∧
    (load autoStored).dataTheme = some light ∧
    (osChange (load autoStored) true).dataTheme = some light ∧
    resolveTheme (osChange (load autoStored) true) = dark ∧
    ¬ applied (run autoStored [.osChange true]) := by
  unfold applied
  decide

theorem opposite_opposite (theme : JSString) (h : theme = light ∨ theme = dark) :
    opposite (opposite theme) = theme := by
  rcases h with rfl | rfl <;> decide

/-- C14: a toggle click stores and applies the opposite of the theme that was effective
before it, for every stored value and OS preference; the opposite of `dark` is `light` and
of `light` is `dark`; and after two consecutive clicks the applied (and stored) theme is the
one that was effective before the first. -/
theorem toggleClick_flips (s : State) :
    (toggleClick s).stored = some (opposite (resolveTheme s)) ∧
    (toggleClick s).dataTheme = some (opposite (resolveTheme s)) ∧
    (resolveTheme s = light ∨ resolveTheme s = dark) ∧
    opposite dark = light ∧ opposite light = dark ∧
    resolveTheme (toggleClick s) = opposite (resolveTheme s) ∧
    (toggleClick (toggleClick s)).stored = some (resolveTheme s) ∧
    (toggleClick (toggleClick s)).dataTheme = some (resolveTheme s) := by
  have hopp := opposite_light_or_dark (resolveTheme s)
  have hstored : ∀ t : State, (toggleClick t).stored = some (opposite (resolveTheme t)) := by
    intro t
    exact (applyTheme_fields { t with stored := some (opposite (resolveTheme t)) }
      (opposite (resolveTheme t))).2.1
  have hdata : ∀ t : State, (toggleClick t).dataTheme = some (opposite (resolveTheme t)) := by
    intro t
    exact (applyTheme_fields { t with stored := some (opposite (resolveTheme t)) }
      (opposite (resolveTheme t))).1
  have hres : resolveTheme (toggleClick s) = opposite (resolveTheme s) :=
    resolveTheme_stored _ _ hopp (hstored s)
  have hback : opposite (resolveTheme (toggleClick s)) = resolveTheme s := by
    rw [hres]
    exact opposite_opposite _ (resolveTheme_light_or_dark s)
  refine ⟨hstored s, hdata s, resolveTheme_light_or_dark s, by decide, by decide, hres, ?_, ?_⟩
  · rw [hstored, hback]
  · rw [hdata, hback]

end Theme

namespace Verification

theorem sendResponse_parts (s : State) (r : SendRequest) (data : SendResponse) (now : Int) :
    ∃ s2 : State,
      s2 = (match data.cooldownSeconds with
        | none => setMessage s s.button.dataset.messageTarget data.message (!data.success)
        | some seconds =>
          if seconds == 0 then
            setMessage s s.button.dataset.messageTarget data.message (!data.success)
          else
            startCountdown
              (setMessage s s.button.dataset.messageTarget data.message (!data.success))
              seconds (requestKey r) now) ∧
      (sendResponse s r data now).button = s2.button ∧
      (sendResponse s r data now).timers = s2.timers ∧
      (sendResponse s r data now).storage = s2.storage := by
  refine ⟨_, rfl, ?_⟩
  unfold sendResponse
  simp only
  split <;> [split; skip] <;> exact ⟨rfl, rfl, rfl⟩

theorem startCountdown_parts (s : State) (seconds : Int) (key : JSString) (now : Int)
    (hs : seconds ≠ 0) (hk : JS.truthy key = true) :
    (startCountdown s seconds key now).timers =
      s.timers ++ [{ remaining := seconds, defaultText := defaultTextOf s.button, key := key }] ∧
    (startCountdown s seconds key now).button.disabled = true ∧
    (startCountdown s seconds key now).button.textContent = resendLabel seconds ∧
    (startCountdown s seconds key now).storage =
      setItem s.storage key (JS.intToString (now + seconds * 1000)) := by
  simp [startCountdown, saveCooldown, hs, hk]

/-- C15 as stated fails: an answer with `success` false that carries `cooldown_seconds`
starts the countdown all the same: the timer is created with 30 seconds, the button is
disabled and the deadline is stored. -/
theorem countdown_starts_without_success :
    refusedResponse.success = false ∧
    (sendResponse samplePage sampleRequest refusedResponse 1000000).timers =
      [{ remaining := 30, defaultText := JS.ofString "Send code",
         key := requestKey sampleRequest }] ∧
    (sendResponse samplePage sampleRequest refusedResponse 1000000).button.disabled = true ∧
    getItem (sendResponse samplePage sampleRequest refusedResponse 1000000).storage
      (requestKey sampleRequest) = some (JS.intToString 1030000) ∧
    ¬ ((sendResponse samplePage sampleRequest refusedResponse 1000000).timers ≠ samplePage.timers ↔
        (refusedResponse.success = true ∧ refusedResponse.cooldownSeconds ≠ none ∧
          refusedResponse.cooldownSeconds ≠ some 0)) := by
  decide

/-- C15 (amended): after the send request resolves, the handler starts a countdown exactly
when the answer carries a non-zero `cooldown_seconds`, whatever its `success` flag. The
countdown then has that length, the button is disabled and relabelled, and the deadline
`now + 1000 * cooldown_seconds` is stored under the request's key; without a non-zero
`cooldown_seconds` the button, its timers and the storage stay as they were. -/
theorem sendResponse_starts_countdown_iff (s : State) (r : SendRequest) (data : SendResponse)
    (now : Int) :
    ((sendResponse s r data now).timers ≠ s.timers ↔
      ∃ n, data.cooldownSeconds = some n ∧ n ≠ 0) ∧
    (∀ n, data.cooldownSeconds = some n → n ≠ 0 →
      (sendResponse s r data now).timers =
        s.timers ++ [{ remaining := n, defaultText := defaultTextOf s.button,
                       key := requestKey r }] ∧
      (sendResponse s r data now).button.disabled = true ∧
      (sendResponse s r data now).button.textContent = resendLabel n ∧
      getItem (sendResponse s r data now).storage (requestKey r) =
        some (JS.intToString (now + n * 1000))) ∧
    ((data.cooldownSeconds = none ∨ data.cooldownSeconds = some 0) →
      (sendResponse s r data now).timers = s.timers ∧
      (sendResponse s r data now).button = s.button ∧
      (sendResponse s r data now).storage = s.storage) := by
  obtain ⟨s2, hs2, hb, ht, hst⟩ := sendResponse_parts s r data now
  obtain ⟨mb, mt, mst⟩ :=
    setMessage_frame s s.button.dataset.messageTarget data.message (!data.success)
  have hstart : ∀ n, data.cooldownSeconds = some n → n ≠ 0 →
      (sendResponse s r data now).timers =
        s.timers ++ [{ remaining := n, defaultText := defaultTextOf s.button,
                       key := requestKey r }] ∧
      (sendResponse s r data now).button.disabled = true ∧
      (sendResponse s r data now).button.textContent = resendLabel n ∧
      getItem (sendResponse s r data now).storage (requestKey r) =
        some (JS.intToString (now + n * 1000)) := by
    intro n hn h0
    have hb0 : (n == 0) = false := by simpa using h0
    rw [hn] at hs2
    simp only [hb0, Bool.false_eq_true, if_false] at hs2
    obtain ⟨p1, p2, p3, p4⟩ := startCountdown_parts
      (setMessage s s.button.dataset.messageTarget data.message (!data.success)) n
      (requestKey r) now h0 (requestKey_truthy r)
    rw [hb, ht, hst, hs2, p1, p2, p3, p4, mt, mb, getItem_setItem]
    exact ⟨rfl, rfl, rfl, rfl⟩
  have hidle : (data.cooldownSeconds = none ∨ data.cooldownSeconds = some 0) →
      (sendResponse s r data now).timers = s.timers ∧
      (sendResponse s r data now).button = s.button ∧
      (sendResponse s r data now).storage = s.storage := by
    intro h
    rcases h with h | h <;> rw [h] at hs2 <;> simp only [beq_self_eq_true, if_true] at hs2 <;>
      rw [hb, ht, hst, hs2] <;> exact ⟨mt, mb, mst⟩
  refine ⟨?_, hstart, hidle⟩
  constructor
  · intro hne
    cases hc : data.cooldownSeconds with
    | none => exact absurd (hidle (Or.inl hc)).1 hne
    | some n =>
      by_cases h0 : n = 0
      · subst h0
        exact absurd (hidle (Or.inr hc)).1 hne
      · exact ⟨n, rfl, h0⟩
  · rintro ⟨n, hn, h0⟩ heq
    have := (hstart n hn h0).1
    rw [heq] at this
    have hlen := congrArg List.length this
    simp at hlen

/-- Witness for C15: the refused answer with 30 seconds starts a countdown of 30 seconds on
the sample page. -/
theorem sendResponse_starts_countdown_iff_witness :
    (refusedResponse.cooldownSeconds = some 30 ∧ (30 : Int) ≠ 0) ∧
    (sendResponse samplePage sampleRequest refusedResponse 1000000).button.disabled = true :=
  ⟨by decide,
    ((sendResponse_starts_countdown_iff samplePage sampleRequest refusedResponse 1000000).2.1
      30 rfl (by decide)).2.1⟩

theorem parseInt10_nil : JS.parseInt10 [] = none := rfl

theorem loadCooldown_of_deadline (st : Storage) (key : JSString) (now : Int)
    (hk : JS.truthy key = true) :
    loadCooldown st key now =
      match storedDeadline st key with
      | none => (0, st)
      | some deadline =>
        if (deadline - now) / 1000 ≤ 0 then (0, removeItem st key)
        else ((deadline - now) / 1000, st) := by
  unfold loadCooldown storedDeadline
  simp only [hk, Bool.not_true, Bool.false_eq_true, if_false]
  cases getItem st key with
  | none => rfl
  | some raw =>
    cases raw with
    | nil => simp [JS.truthy, parseInt10_nil]
    | cons c rest =>
      simp only [JS.truthy, List.isEmpty_cons, Bool.not_false, Bool.not_true, Bool.false_eq_true,
        if_false, Option.bind]

/-- What a reload does to the stored deadline of the key of a page on which the send handler
posts `r`: without a readable deadline the storage is left as it is; a deadline with a whole
second left at the first reading is replaced by the second reading plus
`1000 * floor((deadline - first reading) / 1000)`; otherwise the entry is removed. -/
theorem reloadStorage_deadline (page : State) (r : SendRequest) (st : Storage)
    (readings : Int × Int) (hclick : (sendClick page).2 = some r) :
    (storedDeadline st (requestKey r) = none → reloadStorage page st readings = st) ∧
    (∀ deadline, storedDeadline st (requestKey r) = some deadline →
      storedDeadline (reloadStorage page st readings) (requestKey r) =
        if 0 < (deadline - readings.1) / 1000 then
          some (readings.2 + (deadline - readings.1) / 1000 * 1000)
        else none) := by
  have hrestore := restoreCooldown_of_click page { page with storage := st } r readings.1
    readings.2 hclick rfl rfl rfl
  have hload := loadCooldown_of_deadline st (requestKey r) readings.1 (requestKey_truthy r)
  simp only at hrestore
  constructor
  · intro hnone
    rw [hnone] at hload
    simp only at hload
    unfold reloadStorage
    rw [hrestore, hload]
    simp
  · intro deadline hd
    rw [hd] at hload
    simp only at hload
    unfold reloadStorage
    rw [hrestore, hload]
    by_cases hpos : 0 < (deadline - readings.1) / 1000
    · have hnot : ¬ ((deadline - readings.1) / 1000 ≤ 0) := by omega
      have hne : (deadline - readings.1) / 1000 ≠ 0 := by omega
      simp only [if_neg hnot, gt_iff_lt, hpos, if_true]
      rw [(startCountdown_parts _ _ _ readings.2 hne (requestKey_truthy r)).2.2.2]
      simp [storedDeadline, getItem_setItem, JS.parseInt10_intToString]
    · have hle : (deadline - readings.1) / 1000 ≤ 0 := by omega
      simp only [if_pos hle, gt_iff_lt, lt_self_iff_false, if_false, hpos]
      simp [storedDeadline, getItem_removeItem]

theorem reloadsStorage_of_none (page : State) (r : SendRequest)
    (hclick : (sendClick page).2 = some r) (readings : List (Int × Int)) (st : Storage)
    (hnone : storedDeadline st (requestKey r) = none) :
    reloadsStorage page st readings = st := by
  induction readings with
  | nil => rfl
  | cons now rest ih =>
    unfold reloadsStorage at *
    rw [List.foldl_cons, (reloadStorage_deadline page r st now hclick).1 hnone]
    exact ih

theorem reloadsStorage_deadline (page : State) (r : SendRequest)
    (hclick : (sendClick page).2 = some r) (readings : List (Int × Int)) (st : Storage)
    (deadline last : Int)
    (hd : storedDeadline st (requestKey r) = some deadline)
    (hlast : storedDeadline (reloadsStorage page st readings) (requestKey r) = some last) :
    last ≤ deadline + clockDrift readings ∧
    ((∀ p ∈ readings, p.1 ≤ p.2) → deadline - last ≤ 999 * readings.length) := by
  induction readings generalizing st deadline with
  | nil =>
    simp only [reloadsStorage, List.foldl_nil] at hlast
    rw [hd] at hlast
    simp only [Option.some.injEq] at hlast
    subst hlast
    simp [clockDrift]
  | cons now rest ih =>
    have hstep := (reloadStorage_deadline page r st now hclick).2 deadline hd
    have hfold : reloadsStorage page st (now :: rest) =
        reloadsStorage page (reloadStorage page st now) rest := rfl
    rw [hfold] at hlast
    by_cases hpos : 0 < (deadline - now.1) / 1000
    · rw [if_pos hpos] at hstep
      obtain ⟨h1, h2⟩ := ih (reloadStorage page st now) _ hstep hlast
      have hdrift : clockDrift (now :: rest) = (now.2 - now.1) + clockDrift rest := by
        simp [clockDrift]
      constructor
      · rw [hdrift]
        omega
      · intro hmono
        have hnow : now.1 ≤ now.2 := hmono now (List.mem_cons_self now rest)
        have h2' := h2 (fun p hp => hmono p (List.mem_cons_of_mem now hp))
        simp only [List.length_cons, Nat.cast_add, Nat.cast_one]
        omega
    · rw [if_neg hpos] at hstep
      rw [reloadsStorage_of_none page r hclick rest _ hstep, hstep] at hlast
      cases hlast

/-- C16 as stated fails: `restoreCooldown` reads the clock twice. With the deadline 1060000
stored, the first reading 1055000 gives 5 whole seconds and the second reading, one
millisecond later, is the base of the deadline saved again: 1060001, later than the one
found. -/
theorem restoreCooldown_extends_deadline :
    storedDeadline reloadedPage.storage (requestKey sampleRequest) = some 1060000 ∧
    (0 : Int) < (1060000 - 1055000) / 1000 ∧
    storedDeadline (restoreCooldown reloadedPage 1055000 1055001).storage
      (requestKey sampleRequest) = some 1060001 ∧
    ¬ ((1060001 : Int) ≤ 1060000) ∧
    storedDeadline (reloadsStorage reloadedPage reloadedPage.storage
      [(1055000, 1055001), (1056001, 1056002)]) (requestKey sampleRequest) = some 1060002 := by
  decide

/-- C16 (amended): let the stored deadline `U` and the clock readings be non-negative
integers that, added up, stay below 2^53. When `restoreCooldown` finds `U` at its first
clock reading `T1` with `floor((U - T1) / 1000) > 0`, the deadline it persists again through
`startCountdown`, at the second reading `T2`, is `T2 + 1000 * floor((U - T1) / 1000)`, again
below 2^53. It exceeds `U` by at most `T2 - T1`, the time that passed between the readings,
and for `T1 ≤ T2` it is more than `U - 1000`; when both readings are equal it is at most
`U`. Over any sequence of reloads whose second reading never precedes the first, a deadline
still stored at the end is at most the first one plus the time that passed inside the
handlers, and below the first one by at most 999 milliseconds (less than one second) per
reload; when the readings of each reload are equal it is at most the first one. -/
theorem restoreCooldown_extends_by_clock_drift (page : State) (r : SendRequest) (U : Int)
    (hclick : (sendClick page).2 = some r)
    (hU : storedDeadline page.storage (requestKey r) = some U)
    (hsafe : U < JS.safeBound) :
    (∀ T1 T2 : Int, 0 ≤ T1 → 0 ≤ T2 → U + T2 < JS.safeBound → 0 < (U - T1) / 1000 →
      storedDeadline (restoreCooldown page T1 T2).storage (requestKey r) =
        some (T2 + (U - T1) / 1000 * 1000) ∧
      T2 + (U - T1) / 1000 * 1000 ≤ U + (T2 - T1) ∧
      (T1 ≤ T2 → U - 1000 < T2 + (U - T1) / 1000 * 1000) ∧
      (T2 = T1 → T2 + (U - T1) / 1000 * 1000 ≤ U) ∧
      0 ≤ T2 + (U - T1) / 1000 * 1000 ∧
      T2 + (U - T1) / 1000 * 1000 < JS.safeBound) ∧
    (∀ (readings : List (Int × Int)) (last : Int),
      (∀ p ∈ readings, 0 ≤ p.1 ∧ p.1 ≤ p.2 ∧ U + clockDrift readings + p.2 < JS.safeBound) →
      storedDeadline (reloadsStorage page page.storage readings) (requestKey r) = some last →
        last ≤ U + clockDrift readings ∧
        U - last ≤ 999 * readings.length ∧
        ((∀ p ∈ readings, p.2 = p.1) → last ≤ U) ∧
        last < JS.safeBound) := by
  constructor
  · intro T1 T2 h1 h2 hsum hpos
    have hstep := (reloadStorage_deadline page r page.storage (T1, T2) hclick).2 U hU
    simp only at hstep
    rw [if_pos hpos] at hstep
    refine ⟨hstep, ?_, ?_, ?_, ?_, ?_⟩
    · omega
    · intro h; omega
    · intro h; omega
    · omega
    · omega
  · intro readings last hrange hlast
    obtain ⟨h1, h2⟩ :=
      reloadsStorage_deadline page r hclick readings page.storage U last hU hlast
    have hmono : ∀ p ∈ readings, p.1 ≤ p.2 := fun p hp => (hrange p hp).2.1
    refine ⟨h1, h2 hmono, ?_, ?_⟩
    · intro hsame
      have hzero : clockDrift readings = 0 := by
        unfold clockDrift
        apply List.sum_eq_zero
        intro x hx
        obtain ⟨p, hp, rfl⟩ := List.mem_map.mp hx
        rw [hsame p hp]
        simp
      rw [hzero] at h1
      omega
    · cases readings with
      | nil =>
        have h0 : clockDrift [] = 0 := by simp [clockDrift]
        rw [h0] at h1
        omega
      | cons p rest =>
        obtain ⟨hp1, hp2, hp3⟩ := hrange p (List.mem_cons_self p rest)
        omega

/-- Witness for C16: the reloaded sample page holds the deadline 1060000; restored with the
readings 1020500 and 1020503 it persists 1059503, and after a second reload with the
readings 1030700 and 1030701 the deadline is 1058701. -/
theorem restoreCooldown_extends_by_clock_drift_witness :
    ((sendClick reloadedPage).2 = some sampleRequest ∧
      storedDeadline reloadedPage.storage (requestKey sampleRequest) = some 1060000 ∧
      (1060000 : Int) < JS.safeBound ∧
      (0 : Int) ≤ 1020500 ∧ (0 : Int) ≤ 1020503 ∧ (1060000 : Int) + 1020503 < JS.safeBound ∧
      (0 : Int) < (1060000 - 1020500) / 1000 ∧
      (∀ p ∈ [((1020500 : Int), (1020503 : Int)), (1030700, 1030701)],
        0 ≤ p.1 ∧ p.1 ≤ p.2 ∧
        1060000 + clockDrift [(1020500, 1020503), (1030700, 1030701)] + p.2 < JS.safeBound) ∧
      storedDeadline (reloadsStorage reloadedPage reloadedPage.storage
        [(1020500, 1020503), (1030700, 1030701)]) (requestKey sampleRequest) = some 1058701) ∧
    (storedDeadline (restoreCooldown reloadedPage 1020500 1020503).storage
        (requestKey sampleRequest) = some (1020503 + (1060000 - 1020500) / 1000 * 1000) ∧
      (1020503 : Int) + (1060000 - 1020500) / 1000 * 1000 ≤ 1060000 + (1020503 - 1020500) ∧
      ((1020500 : Int) ≤ 1020503 →
        (1060000 : Int) - 1000 < 1020503 + (1060000 - 1020500) / 1000 * 1000) ∧
      ((1020503 : Int) = 1020500 →
        (1020503 : Int) + (1060000 - 1020500) / 1000 * 1000 ≤ 1060000) ∧
      (0 : Int) ≤ 1020503 + (1060000 - 1020500) / 1000 * 1000 ∧
      (1020503 : Int) + (1060000 - 1020500) / 1000 * 1000 < JS.safeBound) ∧
    ((1060000 : Int) - 1058701 ≤
      999 * ([((1020500 : Int), (1020503 : Int)), (1030700, 1030701)].length : Int)) :=
  ⟨by decide,
    (restoreCooldown_extends_by_clock_drift reloadedPage sampleRequest 1060000 (by decide)
      (by decide) (by decide)).1 1020500 1020503 (by decide) (by decide) (by decide) (by decide),
    ((restoreCooldown_extends_by_clock_drift reloadedPage sampleRequest 1060000 (by decide)
      (by decide) (by decide)).2 [(1020500, 1020503), (1030700, 1030701)] 1058701 (by decide)
      (by decide)).2.1⟩

end Verification

